import Mathlib

/-!
# Maelstrom node library and broadcast service

A shallow embedding of `node.go`, `message.go`, `cmd/broadcast/main.go` and
`cmd/echo/main.go`.

* The input stream is a list of lines; the output stream is the list of
  envelopes written so far together with the outcomes of the upcoming
  `Write` calls.
* Go values of type `error` are `Option GoError` (`none` is `nil`).
* A handler of the program is a closure over the node and the package-level
  variables of `main`; here it is a function on the `World` that holds both.
* The handler table is a field of `Node` in the source; here it is passed
  next to the `World`, since handlers are functions on the `World`.
* A nil slice and an empty slice are both the empty list, except for the
  values of the topology map, where the source tests for nil.
-/

namespace Maelstrom

/-! ## Wire data -/

/-- Go `error` values that are not nil. -/
abbrev GoError := String

/-- Source: `type messageType string`. -/
abbrev messageType := String

/-- What a JSON object holds under one key, seen from a Go field of type `α`:
the key is missing, it holds `null`, it holds a value that fits the Go type,
or it holds a value that does not fit (`json.Unmarshal` then reports an
error). -/
inductive Field (α : Type) where
  | absent
  | null
  | value (a : α)
  | mismatch
deriving DecidableEq, Repr

/-- How `json.Unmarshal` fills one struct field that starts at `zero`:
a missing key and `null` leave the zero value, a fitting value is stored,
anything else is an error (`none`). -/
def Field.decode {α : Type} (zero : α) : Field α → Option α
  | .absent => some zero
  | .null => some zero
  | .value a => some a
  | .mismatch => none

/-- A JSON object restricted to the keys that the structs of the repository
name in their `json` tags. The entries of `topology` are those of the decoded
Go map, read by `mapIndex`; the value of an entry is `none` for JSON `null`
(a nil slice after decoding) and `some []` for the empty array. -/
structure JsonObject where
  type : Field String := .absent
  msg_id : Field Int := .absent
  in_reply_to : Field Int := .absent
  node_id : Field String := .absent
  node_ids : Field (List String) := .absent
  topology : Field (List (String × Option (List String))) := .absent
  messages : Field (List Int) := .absent
  message : Field Int := .absent
  echo : Field String := .absent
deriving DecidableEq, Repr

/-- Source: `json.RawMessage`, the undecoded body of an envelope. `invalid` is
a body that no struct accepts: the `body` key is missing, or it holds a JSON
string, number, boolean or array. JSON `null` decodes like the empty object. -/
inductive RawMessage where
  | invalid
  | object (o : JsonObject)
deriving DecidableEq, Repr

/-- Source: `message.go`, `type Message struct`. -/
structure Message where
  Src : String
  Dst : String
  Body : RawMessage
deriving DecidableEq, Repr

/-- Source: `message.go`, `type MessageBody struct`. -/
structure MessageBody where
  Type_ : messageType := ""
  MessageID : Int := 0
  InReplyTo : Int := 0
deriving DecidableEq, Repr

/-- Source: `message.go`, `type InitBody struct`. -/
structure InitBody extends MessageBody where
  NodeID : String := ""
  Nodes : List String := []
deriving DecidableEq, Repr

/-- Source: `cmd/broadcast/main.go`, `type TopologyBody struct`. The Go map is
an association list read by `mapIndex`. -/
structure TopologyBody extends MessageBody where
  Topology : List (String × Option (List String)) := []
deriving DecidableEq, Repr

/-- Source: `cmd/broadcast/main.go`, `type ReadBody struct`. -/
structure ReadBody extends MessageBody where
  Messages : List Int := []
deriving DecidableEq, Repr

/-- Source: `cmd/broadcast/main.go`, `type BroadcastBody struct`. -/
structure BroadcastBody extends MessageBody where
  Message : Int := 0
deriving DecidableEq, Repr

/-- Source: `cmd/echo/main.go`, `type EchoBody struct`. -/
structure EchoBody extends MessageBody where
  Echo : String := ""
deriving DecidableEq, Repr

/-- The error value of a failed `json.Unmarshal`. -/
def jsonError : GoError := "json: cannot unmarshal"

/-- The error value of a failed `Write`. -/
def writeError : GoError := "write failed"

/-- Go map indexing `m[k]` for `map[string][]string`: the nil slice (`none`)
when the key is missing or bound to nil. -/
def mapIndex (m : List (String × Option (List String))) (k : String) : Option (List String) :=
  match m.lookup k with
  | some v => v
  | none => none

/-- The three header fields as `json.Unmarshal` reads them. -/
def decodeHeader (o : JsonObject) : Option MessageBody :=
  match o.type.decode "", o.msg_id.decode 0, o.in_reply_to.decode 0 with
  | some t, some m, some r => some { Type_ := t, MessageID := m, InReplyTo := r }
  | _, _, _ => none

/-- Models `json.Unmarshal(raw, &body)` for `body : MessageBody`. -/
def unmarshalMessageBody : RawMessage → Except GoError MessageBody
  | .invalid => .error jsonError
  | .object o =>
    match decodeHeader o with
    | some h => .ok h
    | none => .error jsonError

/-- Models `json.Unmarshal(raw, &body)` for `body : InitBody`. -/
def unmarshalInitBody : RawMessage → Except GoError InitBody
  | .invalid => .error jsonError
  | .object o =>
    match decodeHeader o, o.node_id.decode "", o.node_ids.decode [] with
    | some h, some id, some ns => .ok { toMessageBody := h, NodeID := id, Nodes := ns }
    | _, _, _ => .error jsonError

/-- Models `json.Unmarshal(raw, &body)` for `body : TopologyBody`. -/
def unmarshalTopologyBody : RawMessage → Except GoError TopologyBody
  | .invalid => .error jsonError
  | .object o =>
    match decodeHeader o, o.topology.decode [] with
    | some h, some t => .ok { toMessageBody := h, Topology := t }
    | _, _ => .error jsonError

/-- Models `json.Unmarshal(raw, &body)` for `body : BroadcastBody`. -/
def unmarshalBroadcastBody : RawMessage → Except GoError BroadcastBody
  | .invalid => .error jsonError
  | .object o =>
    match decodeHeader o, o.message.decode 0 with
    | some h, some v => .ok { toMessageBody := h, Message := v }
    | _, _ => .error jsonError

/-- Models `json.Unmarshal(raw, &body)` for `body : EchoBody`. -/
def unmarshalEchoBody : RawMessage → Except GoError EchoBody
  | .invalid => .error jsonError
  | .object o =>
    match decodeHeader o, o.echo.decode "" with
    | some h, some e => .ok { toMessageBody := h, Echo := e }
    | _, _ => .error jsonError

/-- The `omitempty` option of a `json` tag on an `int` field. -/
def omitempty (n : Int) : Field Int :=
  if n = 0 then .absent else .value n

/-- The header keys that `json.Marshal` writes for a `MessageBody`. -/
def marshalHeader (b : MessageBody) : JsonObject :=
  { type := .value b.Type_, msg_id := omitempty b.MessageID, in_reply_to := omitempty b.InReplyTo }

/-- The values that the repository passes as `body any` to `Node.Send`. -/
inductive Payload where
  | messageBody (b : MessageBody)
  | readBody (b : ReadBody)
  | broadcastBody (b : BroadcastBody)
  | echoBody (b : EchoBody)
deriving DecidableEq, Repr

/-- Models `json.Marshal(body)`; it does not fail on the structs of the
repository. The `messages` key has no `omitempty`: a nil slice is written as
`null`, and the value set is nil exactly while it is empty. -/
def jsonMarshal : Payload → Except GoError RawMessage
  | .messageBody b => .ok (.object (marshalHeader b))
  | .readBody b =>
    .ok (.object { marshalHeader b.toMessageBody with
      messages := if b.Messages = [] then .null else .value b.Messages })
  | .broadcastBody b =>
    .ok (.object { marshalHeader b.toMessageBody with message := .value b.Message })
  | .echoBody b =>
    .ok (.object { marshalHeader b.toMessageBody with echo := .value b.Echo })

/-! ## The node -/

/-- Source: the `writer io.Writer` of a node. `out` holds the lines written so
far, oldest first; `pending` holds the outcome of each upcoming `Write` call
(`false` is a failed write, which adds nothing to `out`), and once it is used
up every write succeeds. -/
structure Writer where
  out : List Message := []
  pending : List Bool := []
deriving DecidableEq, Repr

/-- One `Write` of a marshalled envelope followed by a newline. -/
def Writer.Write (w : Writer) (line : Message) : Option GoError × Writer :=
  match w.pending with
  | [] => (none, { w with out := w.out ++ [line] })
  | true :: rest => (none, { out := w.out ++ [line], pending := rest })
  | false :: rest => (some writeError, { w with pending := rest })

/-- Source: `node.go`, `type Node struct`, without `reader` (the argument of
`Run`), `handlers` (passed next to the world) and `initHandler` (always
`defaultInitHandler`). -/
structure Node where
  writer : Writer := {}
  id : String := ""
  nodes : List String := []
  topology : List String := []
deriving DecidableEq, Repr

/-- Source: `node.go`, `NewNode`. -/
def NewNode : Node := {}

/-- Source: `node.go`, `(*Node).Init`. -/
def Node.Init (n : Node) (id : String) (nodes : List String) : Node :=
  { n with id := id, nodes := nodes }

/-- Source: `node.go`, `(*Node).ID`. -/
def Node.ID (n : Node) : String := n.id

/-- Source: `node.go`, `(*Node).Topology`. -/
def Node.Topology (n : Node) : List String := n.topology

/-- Source: `node.go`, `(*Node).SetTopology`. -/
def Node.SetTopology (n : Node) (topology : List String) : Node :=
  { n with topology := topology }

/-- Source: `node.go`, `(*Node).isInitialised`. -/
def Node.isInitialised (n : Node) : Bool := n.id != ""

/-- Source: `node.go`, `(*Node).Send`. Marshalling the envelope itself does
not fail, since its body is the output of `json.Marshal`. -/
def Node.Send (n : Node) (dst : String) (body : Payload) : Option GoError × Node :=
  match jsonMarshal body with
  | .error err => (some ("error marshalling message body: " ++ err), n)
  | .ok b =>
    let msg : Message := { Src := n.id, Dst := dst, Body := b }
    match n.writer.Write msg with
    | (some err, w) => (some ("error writing message to writer: " ++ err), { n with writer := w })
    | (none, w) => (none, { n with writer := w })

/-- Source: `node.go`, `defaultInitHandler`. -/
def defaultInitHandler (node : Node) (msg : Message) : Option GoError × Node :=
  match unmarshalInitBody msg.Body with
  | .error err => (some err, node)
  | .ok body =>
    let node := node.Init body.NodeID body.Nodes
    let reply : MessageBody := { Type_ := "init_ok", InReplyTo := body.MessageID }
    node.Send msg.Src (.messageBody reply)

/-- The state a handler closure can reach: the node it captured and the
package-level `messages` of `cmd/broadcast/main.go`. -/
structure World where
  node : Node := {}
  messages : List Int := []
deriving DecidableEq, Repr

/-- Source: `node.go`, `type messageHandler func(msg Message) error`. -/
abbrev messageHandler := Message → World → Option GoError × World

/-- Source: the `handlers map[messageType]messageHandler` of a node. -/
abbrev Handlers := messageType → Option messageHandler

/-- The table made by `make(map[messageType]messageHandler)`. -/
def noHandlers : Handlers := fun _ => none

/-- Source: `node.go`, `(*Node).Handle`. -/
def Handle (handlers : Handlers) (msgType : messageType) (handler : messageHandler) :
    Option GoError × Handlers :=
  if msgType = "init" then
    (some "cannot register handler for init message type", handlers)
  else if (handlers msgType).isSome || msgType = "init" then
    (some ("handler for " ++ msgType ++ " already exists"), handlers)
  else
    (none, fun t => if t = msgType then some handler else handlers t)

/-- One line of the input stream: `malformed` is a line that
`json.Unmarshal` rejects as an envelope. -/
inductive Line where
  | malformed
  | message (m : Message)
deriving DecidableEq, Repr

/-- Models `json.Unmarshal(scanner.Bytes(), &msg)`. -/
def unmarshalMessage : Line → Except GoError Message
  | .malformed => .error jsonError
  | .message m => .ok m

/-- Source: `node.go`, the body of the `for scanner.Scan()` loop of `Run`.
`none` means the loop goes on with the next line. -/
def runLine (handlers : Handlers) (w : World) (line : Line) : Option GoError × World :=
  match unmarshalMessage line with
  | .error err => (some ("error unmarshalling message: " ++ err), w)
  | .ok msg =>
    match unmarshalMessageBody msg.Body with
    | .error err => (some ("error unmarshalling message body: " ++ err), w)
    | .ok body =>
      if body.Type_ = "init" then
        match defaultInitHandler w.node msg with
        | (some err, node) => (some ("error handling init message: " ++ err), { w with node := node })
        | (none, node) => (none, { w with node := node })
      else if !w.node.isInitialised then
        (some ("received message of type " ++ body.Type_ ++ " before init"), w)
      else
        match handlers body.Type_ with
        | some handler =>
          match handler msg w with
          | (some err, w1) =>
            (some ("error handling message of type " ++ body.Type_ ++ ": " ++ err), w1)
          | (none, w1) => (none, w1)
        | none => (some ("no handler for message type " ++ body.Type_), w)

/-- Source: `node.go`, `(*Node).Run`. `lines` is what the scanner yields and
`readErr` is `scanner.Err()` once the lines are used up. -/
def Run (handlers : Handlers) (readErr : Option GoError) : List Line → World → Option GoError × World
  | [], w =>
    match readErr with
    | some err => (some ("error reading from reader: " ++ err), w)
    | none => (none, w)
  | line :: rest, w =>
    match runLine handlers w line with
    | (some err, w1) => (some err, w1)
    | (none, w1) => Run handlers readErr rest w1

/-! ## The broadcast service -/

/-- Source: `cmd/broadcast/main.go`, `messageIsKnown`. -/
def messageIsKnown (messages : List Int) (message : Int) : Bool :=
  match messages with
  | [] => false
  | m :: rest => if m = message then true else messageIsKnown rest message

/-- Source: `cmd/broadcast/main.go`, `topologyHandler`. -/
def topologyHandler : messageHandler := fun msg w =>
  match unmarshalTopologyBody msg.Body with
  | .error err => (some ("error unmarshalling message: " ++ err), w)
  | .ok body =>
    match mapIndex body.Topology w.node.ID with
    | none => (some ("node " ++ w.node.ID ++ " not in topology"), w)
    | some topology =>
      let node := w.node.SetTopology topology
      let reply : MessageBody := { Type_ := "topology_ok", InReplyTo := body.MessageID }
      let r := node.Send msg.Src (.messageBody reply)
      (r.1, { w with node := r.2 })

/-- Source: `cmd/broadcast/main.go`, `readHandler`. -/
def readHandler : messageHandler := fun msg w =>
  match unmarshalMessageBody msg.Body with
  | .error err => (some ("error unmarshalling message: " ++ err), w)
  | .ok body =>
    let reply : ReadBody :=
      { Messages := w.messages, Type_ := "read_ok", InReplyTo := body.MessageID }
    let r := w.node.Send msg.Src (.readBody reply)
    (r.1, { w with node := r.2 })

/-- Source: `cmd/broadcast/main.go`, the `for _, n := range node.Topology()`
loop of `broadcastHandler`. The result of `node.Send` is dropped there. -/
def floodLoop (node : Node) (src : String) (message : Int) : List String → Node
  | [] => node
  | n :: rest =>
    if n = src then
      floodLoop node src message rest
    else
      let r := node.Send n (.broadcastBody { Type_ := "broadcast", Message := message })
      floodLoop r.2 src message rest

/-- Source: `cmd/broadcast/main.go`, `broadcastHandler`. -/
def broadcastHandler : messageHandler := fun msg w =>
  match unmarshalBroadcastBody msg.Body with
  | .error err => (some ("error unmarshalling message: " ++ err), w)
  | .ok body =>
    let reply : MessageBody := { Type_ := "broadcast_ok", InReplyTo := body.MessageID }
    if messageIsKnown w.messages body.Message then
      let r := w.node.Send msg.Src (.messageBody reply)
      (r.1, { w with node := r.2 })
    else
      let messages := w.messages ++ [body.Message]
      let node := floodLoop w.node msg.Src body.Message w.node.Topology
      let r := node.Send msg.Src (.messageBody reply)
      (r.1, { node := r.2, messages := messages })

/-- Source: `cmd/broadcast/main.go`, the handler that `main` registers for
`broadcast_ok`. -/
def broadcastOkHandler : messageHandler := fun _ w => (none, w)

/-- Source: `cmd/broadcast/main.go`, the four `node.Handle` calls of `main`
on a new node. -/
def mainHandlers : Handlers :=
  let h1 := (Handle noHandlers "topology" topologyHandler).2
  let h2 := (Handle h1 "read" readHandler).2
  let h3 := (Handle h2 "broadcast" broadcastHandler).2
  (Handle h3 "broadcast_ok" broadcastOkHandler).2

/-! ## The echo service -/

/-- Source: `cmd/echo/main.go`, `echoHandler`. -/
def echoHandler : messageHandler := fun msg w =>
  match unmarshalEchoBody msg.Body with
  | .error err => (some ("error unmarshalling message: " ++ err), w)
  | .ok body =>
    let body := { body with Type_ := "echo_ok" }
    let body := { body with InReplyTo := body.MessageID }
    let body := { body with MessageID := 0 }
    let r := w.node.Send msg.Src (.echoBody body)
    (r.1, { w with node := r.2 })

/-- Source: `cmd/echo/main.go`, the `node.Handle` call of `main` on a new
node. -/
def echoHandlers : Handlers := (Handle noHandlers "echo" echoHandler).2

/-! ## Vocabulary of the statements -/

/-- The marshalled form of a payload. -/
def encode (p : Payload) : RawMessage :=
  match jsonMarshal p with
  | .ok b => b
  | .error _ => .invalid

/-- Every upcoming write of the writer succeeds. -/
def Writer.reliable (w : Writer) : Bool := w.pending.all (fun b => b)

/-- The writer after one `Write` call per line, whatever each call returns. -/
def Writer.writeAll (w : Writer) : List Message → Writer
  | [] => w
  | l :: ls => (w.Write l).2.writeAll ls

/-- The flood of value `v` by node `id` over topology `T` for sender `src`:
one `broadcast` envelope per entry of `T` other than `src`, in the order of `T`. -/
def floodMessages (id src : String) (v : Int) (T : List String) : List Message :=
  (T.filter (fun n => n ≠ src)).map
    (fun n => { Src := id, Dst := n, Body := .object { type := .value "broadcast", message := .value v } })

/-- The value carried by a line that is a `broadcast` message: its body
decodes as a `BroadcastBody` whose type is `broadcast`. -/
def broadcastValue : Line → Option Int
  | .malformed => none
  | .message m =>
    match unmarshalBroadcastBody m.Body with
    | .ok body => if body.Type_ = "broadcast" then some body.Message else none
    | .error _ => none

/-- An acknowledgment as it appears on the wire: a body that holds the type
and, unless it is zero, `in_reply_to`. -/
def ackMessage (src dst : String) (ty : messageType) (inReplyTo : Int) : Message :=
  { Src := src, Dst := dst, Body := .object { type := .value ty, in_reply_to := omitempty inReplyTo } }

/-- The envelopes that `broadcastHandler` passes to `Write` for a decoded
body, in order: the flood when the value is new, then the acknowledgment. -/
def broadcastWrites (w : World) (src : String) (body : BroadcastBody) : List Message :=
  (if messageIsKnown w.messages body.Message then []
    else floodMessages w.node.id src body.Message w.node.topology) ++
    [ackMessage w.node.id src "broadcast_ok" body.MessageID]

/-- The envelope `ack` is an acknowledgment of type `ty` for request `m`: it is
addressed to `dst`, and its body decodes to type `ty` with `in_reply_to` equal
to `m` and no message id of its own. -/
def IsAck (ack : Message) (dst : String) (ty : messageType) (m : Int) : Prop :=
  ack.Dst = dst ∧
    unmarshalMessageBody ack.Body = .ok { Type_ := ty, MessageID := 0, InReplyTo := m }

/-- The envelope is a `broadcast_ok`. -/
def isBroadcastOk (m : Message) : Bool :=
  match m.Body with
  | .object o => o.type == .value "broadcast_ok"
  | .invalid => false

/-- Node `n1` after `init` and a topology message that made `n2` its only
neighbour. -/
def exampleWorld : World := { node := { id := "n1", nodes := ["n1", "n2"], topology := ["n2"] } }

/-- Node `n1` with neighbour `n2` whose next `Write` fails and whose later
writes succeed. -/
def failingWorld : World :=
  { node := { id := "n1", nodes := ["n1", "n2"], topology := ["n2"],
              writer := { pending := [false] } } }

/-- A `broadcast` envelope for `n1` as a neighbour floods it: no `msg_id`. -/
def exampleBroadcast (src : String) (v : Int) : Message :=
  { Src := src, Dst := "n1", Body := .object { type := .value "broadcast", message := .value v } }

/-- A `read` request of a client. -/
def exampleRead : Message :=
  { Src := "c1", Dst := "n1", Body := .object { type := .value "read", msg_id := .value 9 } }

/-- An `init` request that names the node `id`. -/
def exampleInit (id : String) : Message :=
  { Src := "c1", Dst := "n1",
    Body := .object { type := .value "init", msg_id := .value 1, node_id := .value id,
                      node_ids := .value ["n1", "n2"] } }

/-- A `topology` request whose map has the given entries. -/
def exampleTopology (entries : List (String × Option (List String))) : Message :=
  { Src := "c1", Dst := "n1",
    Body := .object { type := .value "topology", msg_id := .value 2, topology := .value entries } }

/-- The type tag that `Run` reads from a line, when the envelope and the
header of its body decode. -/
def lineType (line : Line) : Option messageType :=
  match unmarshalMessage line with
  | .error _ => none
  | .ok msg =>
    match unmarshalMessageBody msg.Body with
    | .error _ => none
    | .ok body => some body.Type_

/-- No handler of the table changes the id or the member list of the node. -/
def PreservesIdentity (handlers : Handlers) : Prop :=
  ∀ (t : messageType) (h : messageHandler), handlers t = some h →
    ∀ (m : Message) (w : World),
      (h m w).2.node.id = w.node.id ∧ (h m w).2.node.nodes = w.node.nodes

/-- A second `init` request, naming the node `n9` in a cluster of three. -/
def exampleSecondInit : Message :=
  { Src := "c1", Dst := "n1",
    Body := .object { type := .value "init", msg_id := .value 3, node_id := .value "n9",
                      node_ids := .value ["n7", "n8", "n9"] } }

/-- The world after each line of the list was handled in turn, in arrival
order, whatever each line returned. -/
def processAll (handlers : Handlers) (w : World) (lines : List Line) : World :=
  lines.foldl (fun w1 l => (runLine handlers w1 l).2) w

/-- Every line of the list, handled in the world that the lines before it
left, returns no error. -/
def errorFree (handlers : Handlers) : World → List Line → Bool
  | _, [] => true
  | w, l :: ls =>
    (runLine handlers w l).1.isNone && errorFree handlers (runLine handlers w l).2 ls

/-- The ways in which one line makes the loop of `Run` fail in world `w`, each
with the error that `Run` returns and the world it leaves: the envelope does
not decode; the header of the body does not decode; the `init` handler returns
an error; a message of another type arrives before the node is initialised;
no handler is registered for the type; the registered handler returns an
error. -/
inductive LineFails (handlers : Handlers) (w : World) : Line → GoError → World → Prop where
  | envelope (line : Line) (e : GoError) :
    unmarshalMessage line = .error e →
    LineFails handlers w line ("error unmarshalling message: " ++ e) w
  | body (line : Line) (msg : Message) (e : GoError) :
    unmarshalMessage line = .ok msg → unmarshalMessageBody msg.Body = .error e →
    LineFails handlers w line ("error unmarshalling message body: " ++ e) w
  | init (line : Line) (msg : Message) (hdr : MessageBody) (e : GoError) (node : Node) :
    unmarshalMessage line = .ok msg → unmarshalMessageBody msg.Body = .ok hdr →
    hdr.Type_ = "init" → defaultInitHandler w.node msg = (some e, node) →
    LineFails handlers w line ("error handling init message: " ++ e) { w with node := node }
  | beforeInit (line : Line) (msg : Message) (hdr : MessageBody) :
    unmarshalMessage line = .ok msg → unmarshalMessageBody msg.Body = .ok hdr →
    hdr.Type_ ≠ "init" → w.node.isInitialised = false →
    LineFails handlers w line ("received message of type " ++ hdr.Type_ ++ " before init") w
  | noHandler (line : Line) (msg : Message) (hdr : MessageBody) :
    unmarshalMessage line = .ok msg → unmarshalMessageBody msg.Body = .ok hdr →
    hdr.Type_ ≠ "init" → w.node.isInitialised = true → handlers hdr.Type_ = none →
    LineFails handlers w line ("no handler for message type " ++ hdr.Type_) w
  | handler (line : Line) (msg : Message) (hdr : MessageBody) (h : messageHandler)
      (e : GoError) (w1 : World) :
    unmarshalMessage line = .ok msg → unmarshalMessageBody msg.Body = .ok hdr →
    hdr.Type_ ≠ "init" → w.node.isInitialised = true → handlers hdr.Type_ = some h →
    h msg w = (some e, w1) →
    LineFails handlers w line ("error handling message of type " ++ hdr.Type_ ++ ": " ++ e) w1

/-- No line of the list fails, each taken in the world that the lines before
it left. -/
def NoFailure (handlers : Handlers) (w : World) (lines : List Line) : Prop :=
  ∀ (a : List Line) (b : Line) (c : List Line), lines = a ++ b :: c →
    ∀ (err : GoError) (w1 : World), ¬ LineFails handlers (processAll handlers w a) b err w1

/-- An `echo` request of a client. -/
def exampleEcho : Message :=
  { Src := "c1", Dst := "n1",
    Body := .object { type := .value "echo", msg_id := .value 4, echo := .value "hi" } }

/-- The `read_ok` envelope on the wire: the type, `in_reply_to` unless it is
zero, and the `messages` key, which holds `null` for the empty value set. -/
def readReply (src dst : String) (inReplyTo : Int) (messages : List Int) : Message :=
  { Src := src, Dst := dst,
    Body := .object { type := .value "read_ok", in_reply_to := omitempty inReplyTo,
                      messages := if messages = [] then .null else .value messages } }

/-- The `echo_ok` envelope on the wire: the type, `in_reply_to` unless it is
zero, and the `echo` key; there is no `msg_id` key. -/
def echoReply (src dst : String) (inReplyTo : Int) (echo : String) : Message :=
  { Src := src, Dst := dst,
    Body := .object { type := .value "echo_ok", msg_id := .absent,
                      in_reply_to := omitempty inReplyTo, echo := .value echo } }

/-- A `broadcast_ok` envelope as a neighbour sends it for a flooded value. -/
def exampleBroadcastOk : Message :=
  { Src := "n2", Dst := "n1", Body := .object { type := .value "broadcast_ok" } }

/-- Follows the words of the specification, not the code: the list obtained
from `v1..vn` by keeping only the first occurrence of each value, in order of
first arrival. -/
def keepFirstOccurrences : List Int → List Int
  | [] => []
  | v :: vs => v :: (keepFirstOccurrences vs).filter (fun x => x ≠ v)

/-! ## Lemmas on the transport -/



theorem jsonMarshal_ok (p : Payload) : jsonMarshal p = .ok (encode p) := by
  cases p <;> rfl

theorem Send_snd (n : Node) (dst : String) (p : Payload) :
    (n.Send dst p).2 = { n with writer := (n.writer.Write ⟨n.id, dst, encode p⟩).2 } := by
  unfold Node.Send
  rw [jsonMarshal_ok]
  dsimp only
  split <;> simp_all

theorem Send_fst (n : Node) (dst : String) (p : Payload) :
    (n.Send dst p).1 =
      (n.writer.Write ⟨n.id, dst, encode p⟩).1.map (fun e => "error writing message to writer: " ++ e) := by
  unfold Node.Send
  rw [jsonMarshal_ok]
  dsimp only
  split <;> simp_all

theorem Write_reliable (w : Writer) (l : Message) (h : w.reliable = true) :
    w.Write l = (none, { out := w.out ++ [l], pending := w.pending.tail }) := by
  unfold Writer.Write
  rcases w with ⟨out, pending⟩
  cases pending with
  | nil => rfl
  | cons b rest =>
    cases b
    · simp [Writer.reliable] at h
    · rfl

theorem reliable_tail (w : Writer) (out : List Message) (h : w.reliable = true) :
    (Writer.mk out w.pending.tail).reliable = true := by
  rcases w with ⟨o, pending⟩
  cases pending with
  | nil => rfl
  | cons b rest =>
    simp [Writer.reliable] at h ⊢
    exact h.2

theorem Send_reliable (n : Node) (dst : String) (p : Payload) (h : n.writer.reliable = true) :
    n.Send dst p =
      (none, { n with writer := { out := n.writer.out ++ [⟨n.id, dst, encode p⟩],
                                  pending := n.writer.pending.tail } }) := by
  apply Prod.ext
  · rw [Send_fst, Write_reliable _ _ h]; rfl
  · rw [Send_snd, Write_reliable _ _ h]

theorem messageIsKnown_iff (ms : List Int) (v : Int) : messageIsKnown ms v = true ↔ v ∈ ms := by
  induction ms with
  | nil => simp [messageIsKnown]
  | cons m rest ih =>
    unfold messageIsKnown
    by_cases hm : m = v
    · simp [hm]
    · simp [hm, ih, Ne.symm hm]

theorem floodLoop_eq (node : Node) (src : String) (v : Int) (T : List String) :
    floodLoop node src v T =
      { node with writer := node.writer.writeAll (floodMessages node.id src v T) } := by
  induction T generalizing node with
  | nil => rfl
  | cons n rest ih =>
    unfold floodLoop
    by_cases hn : n = src
    · simp only [hn, if_true]
      rw [ih]
      simp [floodMessages]
    · simp only [hn, if_false]
      rw [ih, Send_snd]
      simp [floodMessages, hn, Writer.writeAll, encode, jsonMarshal, marshalHeader, omitempty]

theorem writeAll_reliable (ls : List Message) (w : Writer) (h : w.reliable = true) :
    (w.writeAll ls).out = w.out ++ ls ∧ (w.writeAll ls).reliable = true := by
  induction ls generalizing w with
  | nil => simp [Writer.writeAll, h]
  | cons l rest ih =>
    unfold Writer.writeAll
    rw [Write_reliable _ _ h]
    have h2 := ih _ (reliable_tail w (w.out ++ [l]) h)
    simpa using h2

theorem unmarshalBroadcastBody_header (raw : RawMessage) (body : BroadcastBody)
    (h : unmarshalBroadcastBody raw = .ok body) :
    unmarshalMessageBody raw = .ok body.toMessageBody := by
  cases raw with
  | invalid => simp [unmarshalBroadcastBody] at h
  | object o =>
    simp only [unmarshalBroadcastBody, unmarshalMessageBody] at h ⊢
    cases hh : decodeHeader o with
    | none => simp [hh] at h
    | some hd =>
      cases hv : o.message.decode 0 with
      | none => simp [hh, hv] at h
      | some v =>
        simp only [hh, hv] at h ⊢
        cases h
        rfl

theorem runLine_dispatch (handlers : Handlers) (w : World) (m : Message) (hdr : MessageBody)
    (handler : messageHandler)
    (hdec : unmarshalMessageBody m.Body = .ok hdr) (hty : hdr.Type_ ≠ "init")
    (hinit : w.node.isInitialised = true) (hh : handlers hdr.Type_ = some handler) :
    runLine handlers w (.message m) =
      match handler m w with
      | (some err, w1) =>
        (some ("error handling message of type " ++ hdr.Type_ ++ ": " ++ err), w1)
      | (none, w1) => (none, w1) := by
  simp [runLine, unmarshalMessage, hdec, hty, hinit, hh]

theorem mainHandlers_broadcast : mainHandlers "broadcast" = some broadcastHandler := by
  simp [mainHandlers, Handle, noHandlers]

theorem mainHandlers_read : mainHandlers "read" = some readHandler := by
  simp [mainHandlers, Handle, noHandlers]

theorem mainHandlers_topology : mainHandlers "topology" = some topologyHandler := by
  simp [mainHandlers, Handle, noHandlers]

/-- What `broadcastHandler` does on a decodable body when every write succeeds. -/
theorem broadcastHandler_reliable (msg : Message) (w : World) (body : BroadcastBody)
    (hdec : unmarshalBroadcastBody msg.Body = .ok body)
    (hrel : w.node.writer.reliable = true) :
    ∃ w1, broadcastHandler msg w = (none, w1) ∧ w1.node.id = w.node.id ∧
      w1.node.topology = w.node.topology ∧ w1.node.nodes = w.node.nodes ∧
      w1.node.writer.reliable = true ∧
      w1.messages = (if body.Message ∈ w.messages then w.messages else w.messages ++ [body.Message]) ∧
      w1.node.writer.out = w.node.writer.out ++
        (if body.Message ∈ w.messages then []
          else floodMessages w.node.id msg.Src body.Message w.node.topology) ++
        [⟨w.node.id, msg.Src,
          encode (.messageBody { Type_ := "broadcast_ok", InReplyTo := body.MessageID })⟩] := by
  unfold broadcastHandler
  simp only [hdec]
  by_cases hk : body.Message ∈ w.messages
  · have hk2 := (messageIsKnown_iff _ _).2 hk
    simp only [hk2, if_true, hk]
    rw [Send_reliable _ _ _ hrel]
    refine ⟨_, rfl, rfl, rfl, rfl, ?_, rfl, ?_⟩
    · exact reliable_tail _ _ hrel
    · simp
  · have hk2 : messageIsKnown w.messages body.Message = false := by
      rw [Bool.eq_false_iff]; intro h; exact hk ((messageIsKnown_iff _ _).1 h)
    simp only [hk2, hk, if_false, Bool.false_eq_true]
    rw [floodLoop_eq]
    have hw := writeAll_reliable (floodMessages w.node.id msg.Src body.Message w.node.Topology)
      w.node.writer hrel
    rw [Send_reliable _ _ _ hw.2]
    refine ⟨_, rfl, rfl, rfl, rfl, ?_, rfl, ?_⟩
    · exact reliable_tail _ _ hw.2
    · simp only [Node.Topology] at hw ⊢
      simp [hw.1]

theorem Run_append (handlers : Handlers) (readErr : Option GoError) (a b : List Line) (w : World) :
    Run handlers readErr (a ++ b) w =
      match Run handlers none a w with
      | (some err, w1) => (some err, w1)
      | (none, w1) => Run handlers readErr b w1 := by
  induction a generalizing w with
  | nil => simp [Run]
  | cons l rest ih =>
    simp only [List.cons_append, Run]
    rcases hr : runLine handlers w l with ⟨e, w1⟩
    cases e with
    | some err => simp
    | none => simpa using ih w1

theorem runLine_broadcast (w : World) (l : Line) (v : Int)
    (hv : broadcastValue l = some v)
    (hinit : w.node.isInitialised = true) (hrel : w.node.writer.reliable = true) :
    ∃ w1, runLine mainHandlers w l = (none, w1) ∧ w1.node.id = w.node.id ∧
      w1.node.writer.reliable = true ∧
      w1.messages = (if v ∈ w.messages then w.messages else w.messages ++ [v]) := by
  cases l with
  | malformed => simp [broadcastValue] at hv
  | message m =>
    simp only [broadcastValue] at hv
    cases hdec : unmarshalBroadcastBody m.Body with
    | error e => simp [hdec] at hv
    | ok body =>
      simp only [hdec] at hv
      by_cases hty : body.Type_ = "broadcast"
      · simp only [hty, if_true, Option.some.injEq] at hv
        have hhdr := unmarshalBroadcastBody_header _ _ hdec
        have hne : body.toMessageBody.Type_ ≠ "init" := by rw [hty]; decide
        have hh : mainHandlers body.toMessageBody.Type_ = some broadcastHandler := by
          rw [hty]; exact mainHandlers_broadcast
        rw [runLine_dispatch mainHandlers w m _ _ hhdr hne hinit hh]
        obtain ⟨w1, h1, h2, _, _, h5, h6, _⟩ := broadcastHandler_reliable m w body hdec hrel
        refine ⟨w1, ?_, h2, h5, ?_⟩
        · rw [h1]
        · rw [h6, hv]
      · simp [hty] at hv

theorem Run_broadcasts (lines : List Line) (w : World)
    (hinit : w.node.isInitialised = true) (hrel : w.node.writer.reliable = true)
    (hnd : w.messages.Nodup)
    (hb : ∀ l ∈ lines, (broadcastValue l).isSome = true) :
    (Run mainHandlers none lines w).1 = none ∧
      (Run mainHandlers none lines w).2.node.id = w.node.id ∧
      (Run mainHandlers none lines w).2.node.writer.reliable = true ∧
      (Run mainHandlers none lines w).2.messages.Nodup ∧
      ∀ v, v ∈ (Run mainHandlers none lines w).2.messages ↔
        (v ∈ w.messages ∨ some v ∈ lines.map broadcastValue) := by
  induction lines generalizing w with
  | nil => simp [Run, hrel, hnd]
  | cons l rest ih =>
    obtain ⟨v, hv⟩ := Option.isSome_iff_exists.1 (hb l (List.mem_cons_self _ _))
    obtain ⟨w1, h1, h2, h3, h4⟩ := runLine_broadcast w l v hv hinit hrel
    have hinit1 : w1.node.isInitialised = true := by
      simpa [Node.isInitialised, h2] using hinit
    have hnd1 : w1.messages.Nodup := by
      rw [h4]
      by_cases hm : v ∈ w.messages
      · simpa [hm] using hnd
      · simp only [hm, if_false]
        exact List.Nodup.append hnd (List.nodup_singleton v) (by simpa using hm)
    have ih1 := ih w1 hinit1 h3 hnd1 (fun x hx => hb x (List.mem_cons_of_mem _ hx))
    simp only [Run, h1]
    refine ⟨ih1.1, ih1.2.1.trans h2, ih1.2.2.1, ih1.2.2.2.1, ?_⟩
    intro x
    rw [ih1.2.2.2.2 x, h4, List.map_cons, List.mem_cons, hv]
    by_cases hm : v ∈ w.messages
    · simp only [hm, if_true, Option.some.injEq]
      constructor
      · rintro (h | h)
        · exact Or.inl h
        · exact Or.inr (Or.inr h)
      · rintro (h | h | h)
        · exact Or.inl h
        · exact Or.inl (h ▸ hm)
        · exact Or.inr h
    · simp only [hm, if_false, List.mem_append, List.mem_singleton, Option.some.injEq]
      tauto

/-- C1: on an initialised node whose value set is empty and whose writes all
succeed, `Run` handles every sequence of `broadcast` lines without error, the
value set then holds no value twice, and a `read` line that follows is answered
by one `read_ok` whose `messages` key decodes to that value set, in which every
delivered value occurs exactly once. -/
theorem broadcast_values_stored_once (w : World) (lines : List Line) (readErr : Option GoError)
    (hinit : w.node.isInitialised = true) (hempty : w.messages = [])
    (hrel : w.node.writer.reliable = true)
    (hb : ∀ l ∈ lines, (broadcastValue l).isSome = true) :
    (Run mainHandlers none lines w).1 = none ∧
    (Run mainHandlers none lines w).2.messages.Nodup ∧
    ∀ (rd : Message) (hdr : MessageBody),
      unmarshalMessageBody rd.Body = .ok hdr → hdr.Type_ = "read" →
      ∃ o : JsonObject,
        (Run mainHandlers readErr (lines ++ [.message rd]) w).2.node.writer.out =
          (Run mainHandlers none lines w).2.node.writer.out ++
            [⟨w.node.id, rd.Src, .object o⟩] ∧
        o.type = .value "read_ok" ∧
        o.messages.decode [] = some (Run mainHandlers none lines w).2.messages ∧
        ∀ v, some v ∈ lines.map broadcastValue →
          (Run mainHandlers none lines w).2.messages.count v = 1 := by
  have hnd : w.messages.Nodup := by rw [hempty]; exact List.nodup_nil
  obtain ⟨h1, h2, h3, h4, h5⟩ := Run_broadcasts lines w hinit hrel hnd hb
  refine ⟨h1, h4, ?_⟩
  intro rd hdr hdec hty
  rw [Run_append]
  rcases hr : Run mainHandlers none lines w with ⟨e, w1⟩
  rw [hr] at h1 h2 h3 h4 h5
  simp only at h1 h2 h3 h4 h5
  subst h1
  have hinit1 : w1.node.isInitialised = true := by
    simpa [Node.isInitialised, h2] using hinit
  have hne : hdr.Type_ ≠ "init" := by rw [hty]; decide
  have hh : mainHandlers hdr.Type_ = some readHandler := by rw [hty]; exact mainHandlers_read
  have hstep := runLine_dispatch mainHandlers w1 rd hdr readHandler hdec hne hinit1 hh
  have hread : readHandler rd w1 =
      (none, { w1 with node := { w1.node with writer :=
        { out := w1.node.writer.out ++ [⟨w1.node.id, rd.Src,
            encode (.readBody { Messages := w1.messages, Type_ := "read_ok",
                                InReplyTo := hdr.MessageID })⟩],
          pending := w1.node.writer.pending.tail } } }) := by
    simp only [readHandler, hdec]
    rw [Send_reliable _ _ _ h3]
  rw [hread] at hstep
  refine ⟨{ marshalHeader { Type_ := "read_ok", InReplyTo := hdr.MessageID } with
      messages := if w1.messages = [] then .null else .value w1.messages }, ?_, rfl, ?_, ?_⟩
  · simp only [Run, hstep]
    cases readErr <;> simp [h2, encode, jsonMarshal]
  · by_cases hm : w1.messages = []
    · simp [hm, Field.decode]
    · simp [hm, Field.decode]
  · intro v hv
    exact List.count_eq_one_of_mem h4 ((h5 v).2 (Or.inr hv))

/-- Witness of C1: value 5 delivered by `n2` and again by `n3`. -/
theorem broadcast_values_stored_once_witness :
    (Run mainHandlers none
        [.message (exampleBroadcast "n2" 5), .message (exampleBroadcast "n3" 5)] exampleWorld).1 = none ∧
    (Run mainHandlers none
        [.message (exampleBroadcast "n2" 5), .message (exampleBroadcast "n3" 5)]
        exampleWorld).2.messages.Nodup ∧
    (Run mainHandlers none
        [.message (exampleBroadcast "n2" 5), .message (exampleBroadcast "n3" 5)]
        exampleWorld).2.messages = [5] :=
  ⟨(broadcast_values_stored_once exampleWorld
      [.message (exampleBroadcast "n2" 5), .message (exampleBroadcast "n3" 5)] none
      (by decide) (by decide) (by decide) (by decide)).1,
   (broadcast_values_stored_once exampleWorld
      [.message (exampleBroadcast "n2" 5), .message (exampleBroadcast "n3" 5)] none
      (by decide) (by decide) (by decide) (by decide)).2.1,
   by decide⟩

/-! ## Flooding -/

theorem floodMessages_dst (id src : String) (v : Int) (T : List String) :
    (floodMessages id src v T).map (fun f => f.Dst) = T.filter (fun n => n ≠ src) := by
  simp [floodMessages, Function.comp_def]

/-- C2: for a `broadcast` message from `msg.Src` whose value is not yet in the
value set, the `Write` calls of `broadcastHandler` are, in this order, one
`broadcast` envelope carrying the value per entry of the stored topology that
differs from `msg.Src`, then the acknowledgment to `msg.Src`, and nothing else;
when the writes succeed these envelopes are what is appended to the output. No
flood envelope is addressed to `msg.Src`, whether or not `msg.Src` is an entry
of the topology. -/
theorem broadcast_floods_all_but_sender (w : World) (msg : Message) (body : BroadcastBody)
    (hdec : unmarshalBroadcastBody msg.Body = .ok body)
    (hnew : messageIsKnown w.messages body.Message = false) :
    (broadcastHandler msg w).2.node.writer =
      w.node.writer.writeAll
        (floodMessages w.node.id msg.Src body.Message w.node.topology ++
          [ackMessage w.node.id msg.Src "broadcast_ok" body.MessageID]) ∧
    (w.node.writer.reliable = true →
      (broadcastHandler msg w).2.node.writer.out =
        w.node.writer.out ++ floodMessages w.node.id msg.Src body.Message w.node.topology ++
          [ackMessage w.node.id msg.Src "broadcast_ok" body.MessageID]) ∧
    (floodMessages w.node.id msg.Src body.Message w.node.topology).map (fun f => f.Dst) =
      w.node.topology.filter (fun n => n ≠ msg.Src) ∧
    ∀ f ∈ floodMessages w.node.id msg.Src body.Message w.node.topology,
      f.Dst ≠ msg.Src ∧ f.Dst ∈ w.node.topology ∧ f.Src = w.node.id ∧
      f.Body = .object { type := .value "broadcast", message := .value body.Message } := by
  have hwr : (broadcastHandler msg w).2.node.writer =
      w.node.writer.writeAll
        (floodMessages w.node.id msg.Src body.Message w.node.topology ++
          [ackMessage w.node.id msg.Src "broadcast_ok" body.MessageID]) := by
    have happ : ∀ (ls : List Message) (l : Message) (x : Writer),
        x.writeAll (ls ++ [l]) = ((x.writeAll ls).Write l).2 := by
      intro ls l
      induction ls with
      | nil => intro x; rfl
      | cons a rest ih => intro x; simp only [List.cons_append, Writer.writeAll]; exact ih _
    simp only [broadcastHandler, hdec, hnew, Bool.false_eq_true, if_false]
    rw [Send_snd, floodLoop_eq, happ]
    rfl
  refine ⟨hwr, ?_, floodMessages_dst _ _ _ _, ?_⟩
  · intro hrel
    rw [hwr, (writeAll_reliable _ _ hrel).1, List.append_assoc]
  · intro f hf
    simp only [floodMessages, List.mem_map, List.mem_filter] at hf
    obtain ⟨n, ⟨hn, hne⟩, rfl⟩ := hf
    exact ⟨by simpa using hne, hn, rfl, rfl⟩

/-- Witness of C2: with topology `[n2]`, a new value from `n2` is not flooded
and a new value from `n3` is flooded once, to `n2`. -/
theorem broadcast_floods_all_but_sender_witness :
    (broadcastHandler (exampleBroadcast "n3" 5) exampleWorld).2.node.writer =
      exampleWorld.node.writer.writeAll
        (floodMessages "n1" "n3" 5 ["n2"] ++ [ackMessage "n1" "n3" "broadcast_ok" 0]) ∧
    floodMessages "n1" "n3" 5 ["n2"] =
      [{ Src := "n1", Dst := "n2",
         Body := .object { type := .value "broadcast", message := .value 5 } }] ∧
    floodMessages "n1" "n2" 5 ["n2"] = [] ∧
    (broadcastHandler (exampleBroadcast "n2" 5) exampleWorld).2.node.writer.out =
      [ackMessage "n1" "n2" "broadcast_ok" 0] :=
  ⟨(broadcast_floods_all_but_sender exampleWorld (exampleBroadcast "n3" 5)
      { Type_ := "broadcast", Message := 5 } (by rfl) (by decide)).1,
   by decide, by decide, by decide⟩

/-! ## Messages before `init` -/

/-- C3: on a node that is not initialised, a line that is not an `init`
message makes `Run` return an error at that line; the world (node state, value
set and output) is unchanged, and the outcome is the same for every handler
table, so no registered handler takes part in it. -/
theorem uninitialised_rejects_non_init (handlers : Handlers) (readErr : Option GoError)
    (w : World) (line : Line) (rest : List Line)
    (hun : w.node.isInitialised = false)
    (hty : ∀ m hdr, line = .message m → unmarshalMessageBody m.Body = .ok hdr →
      hdr.Type_ ≠ "init") :
    ∃ err, runLine handlers w line = (some err, w) ∧
      Run handlers readErr (line :: rest) w = (some err, w) ∧
      runLine noHandlers w line = (some err, w) := by
  have key : ∀ hs : Handlers, ∃ err, runLine hs w line = (some err, w) ∧
      runLine noHandlers w line = (some err, w) := by
    intro hs
    cases line with
    | malformed => exact ⟨_, rfl, rfl⟩
    | message m =>
      cases hdec : unmarshalMessageBody m.Body with
      | error e =>
        refine ⟨"error unmarshalling message body: " ++ e, ?_, ?_⟩ <;>
          simp [runLine, unmarshalMessage, hdec]
      | ok hdr =>
        have hne := hty m hdr rfl hdec
        refine ⟨"received message of type " ++ hdr.Type_ ++ " before init", ?_, ?_⟩ <;>
          simp [runLine, unmarshalMessage, hdec, hne, hun]
  obtain ⟨err, h1, h2⟩ := key handlers
  exact ⟨err, h1, by simp [Run, h1], h2⟩

/-- Witness of C3: a `read` request on a new node, with the handlers of the
broadcast service registered. -/
theorem uninitialised_rejects_non_init_witness :
    ∃ err, runLine mainHandlers {} (.message exampleRead) = (some err, {}) ∧
      Run mainHandlers none [.message exampleRead, .message (exampleInit "n1")] {} = (some err, {}) ∧
      runLine noHandlers {} (.message exampleRead) = (some err, {}) :=
  uninitialised_rejects_non_init mainHandlers none {} (.message exampleRead)
    [.message (exampleInit "n1")] (by decide)
    (by
      intro m hdr hm hdec
      cases hm
      cases hdec
      decide)

/-! ## Topology -/

/-- C4: when the topology map of the message has no entry for the own id of
the node, `topologyHandler` returns an error and the world is unchanged: the
stored topology is as before and no `Write` was made. -/
theorem topology_without_own_id_fails (w : World) (msg : Message)
    (hmiss : ∀ body, unmarshalTopologyBody msg.Body = .ok body →
      body.Topology.lookup w.node.ID = none) :
    ∃ err, topologyHandler msg w = (some err, w) := by
  unfold topologyHandler
  cases hdec : unmarshalTopologyBody msg.Body with
  | error e => exact ⟨_, rfl⟩
  | ok body =>
    have h := hmiss body hdec
    simp only [mapIndex, h]
    exact ⟨_, rfl⟩

/-- Witness of C4: node `n1` with topology `[n2]` receives a map that only has
an entry for `n2`. -/
theorem topology_without_own_id_fails_witness :
    ∃ err, topologyHandler (exampleTopology [("n2", some ["n1"])]) exampleWorld =
      (some err, exampleWorld) :=
  topology_without_own_id_fails exampleWorld (exampleTopology [("n2", some ["n1"])])
    (by
      intro body hdec
      cases hdec
      decide)

/-! ## Reply correlation -/

theorem decode_omitempty (n : Int) : (omitempty n).decode 0 = some n := by
  unfold omitempty
  by_cases h : n = 0
  · simp [h, Field.decode]
  · simp [h, Field.decode]

theorem decodeHeader_marshalHeader (b : MessageBody) (o : JsonObject)
    (ht : o.type = (marshalHeader b).type) (hm : o.msg_id = (marshalHeader b).msg_id)
    (hr : o.in_reply_to = (marshalHeader b).in_reply_to) :
    decodeHeader o = some b := by
  unfold decodeHeader
  rw [ht, hm, hr]
  simp only [marshalHeader]
  rw [decode_omitempty, decode_omitempty]
  rfl

/-- Decoding the header of a marshalled `MessageBody` gives it back. -/
theorem unmarshalMessageBody_encode (b : MessageBody) :
    unmarshalMessageBody (encode (.messageBody b)) = .ok b := by
  simp [encode, jsonMarshal, unmarshalMessageBody, decodeHeader_marshalHeader b _ rfl rfl rfl]

/-- Decoding the header of a marshalled `ReadBody` gives its header back. -/
theorem unmarshalMessageBody_encode_read (b : ReadBody) :
    unmarshalMessageBody (encode (.readBody b)) = .ok b.toMessageBody := by
  simp only [encode, jsonMarshal, unmarshalMessageBody]
  rw [decodeHeader_marshalHeader b.toMessageBody] <;> rfl

theorem Write_none (w : Writer) (l : Message) (h : (w.Write l).1 = none) :
    (w.Write l).2.out = w.out ++ [l] := by
  unfold Writer.Write at h ⊢
  rcases w with ⟨out, pending⟩
  cases pending with
  | nil => rfl
  | cons b rest =>
    cases b
    · simp at h
    · rfl

theorem Send_none (n : Node) (dst : String) (p : Payload) (h : (n.Send dst p).1 = none) :
    (n.Send dst p).2.writer.out = n.writer.out ++ [⟨n.id, dst, encode p⟩] := by
  rw [Send_fst] at h
  rw [Send_snd]
  apply Write_none
  cases hw : (n.writer.Write ⟨n.id, dst, encode p⟩).1 with
  | none => rfl
  | some e => simp [hw] at h

theorem writeAll_out (ls : List Message) (w : Writer) :
    ∃ pre, (w.writeAll ls).out = w.out ++ pre ∧ ∀ f ∈ pre, f ∈ ls := by
  induction ls generalizing w with
  | nil => exact ⟨[], by simp [Writer.writeAll], by simp⟩
  | cons l rest ih =>
    obtain ⟨pre, h1, h2⟩ := ih (w.Write l).2
    have hw : (w.Write l).2.out = w.out ∨ (w.Write l).2.out = w.out ++ [l] := by
      unfold Writer.Write
      rcases w with ⟨out, pending⟩
      cases pending with
      | nil => exact Or.inr rfl
      | cons b rest2 => cases b <;> simp
    rcases hw with hw | hw
    · refine ⟨pre, ?_, fun f hf => List.mem_cons_of_mem _ (h2 f hf)⟩
      simp only [Writer.writeAll]
      rw [h1, hw]
    · refine ⟨l :: pre, ?_, ?_⟩
      · simp only [Writer.writeAll]
        rw [h1, hw]
        simp
      · intro f hf
        rcases List.mem_cons.1 hf with rfl | hf
        · exact List.mem_cons_self _ _
        · exact List.mem_cons_of_mem _ (h2 f hf)

/-- C5: whenever one of the four request handlers returns without error, the
last envelope it wrote is the acknowledgment: it is addressed to the source of
the request, and its body decodes to the acknowledgment type with `in_reply_to`
equal to the message id of the request. For `broadcast` this holds for new and
for known values; what precedes the acknowledgment is the flood. -/
theorem acknowledgments_correlate :
    (∀ (node : Node) (msg : Message) (node1 : Node),
      defaultInitHandler node msg = (none, node1) →
      ∃ body, unmarshalInitBody msg.Body = .ok body ∧
        ∃ ack, node1.writer.out = node.writer.out ++ [ack] ∧ IsAck ack msg.Src "init_ok" body.MessageID) ∧
    (∀ (w : World) (msg : Message) (w1 : World),
      topologyHandler msg w = (none, w1) →
      ∃ body, unmarshalTopologyBody msg.Body = .ok body ∧
        ∃ ack, w1.node.writer.out = w.node.writer.out ++ [ack] ∧
          IsAck ack msg.Src "topology_ok" body.MessageID) ∧
    (∀ (w : World) (msg : Message) (w1 : World),
      readHandler msg w = (none, w1) →
      ∃ body, unmarshalMessageBody msg.Body = .ok body ∧
        ∃ ack, w1.node.writer.out = w.node.writer.out ++ [ack] ∧
          IsAck ack msg.Src "read_ok" body.MessageID) ∧
    (∀ (w : World) (msg : Message) (w1 : World),
      broadcastHandler msg w = (none, w1) →
      ∃ body, unmarshalBroadcastBody msg.Body = .ok body ∧
        ∃ pre ack, w1.node.writer.out = w.node.writer.out ++ pre ++ [ack] ∧
          (∀ f ∈ pre, f ∈ floodMessages w.node.id msg.Src body.Message w.node.topology) ∧
          IsAck ack msg.Src "broadcast_ok" body.MessageID) := by
  refine ⟨?_, ?_, ?_, ?_⟩
  · intro node msg node1 h
    unfold defaultInitHandler at h
    cases hdec : unmarshalInitBody msg.Body with
    | error e => simp [hdec] at h
    | ok body =>
      simp only [hdec] at h
      have h1 := Send_none _ _ _ (congrArg Prod.fst h)
      rw [h] at h1
      exact ⟨body, rfl, _, h1, rfl, unmarshalMessageBody_encode _⟩
  · intro w msg w1 h
    unfold topologyHandler at h
    cases hdec : unmarshalTopologyBody msg.Body with
    | error e => simp [hdec] at h
    | ok body =>
      simp only [hdec] at h
      cases hidx : mapIndex body.Topology w.node.ID with
      | none => simp [hidx] at h
      | some topology =>
        simp only [hidx] at h
        obtain ⟨hfst, rfl⟩ := Prod.mk.inj h
        exact ⟨body, rfl, _, Send_none _ _ _ hfst, rfl, unmarshalMessageBody_encode _⟩
  · intro w msg w1 h
    unfold readHandler at h
    cases hdec : unmarshalMessageBody msg.Body with
    | error e => simp [hdec] at h
    | ok body =>
      simp only [hdec] at h
      obtain ⟨hfst, rfl⟩ := Prod.mk.inj h
      exact ⟨body, rfl, _, Send_none _ _ _ hfst, rfl, unmarshalMessageBody_encode_read _⟩
  · intro w msg w1 h
    unfold broadcastHandler at h
    cases hdec : unmarshalBroadcastBody msg.Body with
    | error e => simp [hdec] at h
    | ok body =>
      simp only [hdec] at h
      refine ⟨body, rfl, ?_⟩
      by_cases hk : messageIsKnown w.messages body.Message = true
      · simp only [hk, if_true] at h
        obtain ⟨hfst, rfl⟩ := Prod.mk.inj h
        exact ⟨[], _, by simpa using Send_none _ _ _ hfst, by simp, rfl,
          unmarshalMessageBody_encode _⟩
      · simp only [hk, if_false] at h
        rw [floodLoop_eq] at h
        obtain ⟨hfst, rfl⟩ := Prod.mk.inj h
        have h1 := Send_none _ _ _ hfst
        obtain ⟨pre, hp1, hp2⟩ := writeAll_out
          (floodMessages w.node.id msg.Src body.Message w.node.Topology) w.node.writer
        simp only at h1
        rw [hp1] at h1
        exact ⟨pre, _, h1, hp2, rfl, unmarshalMessageBody_encode _⟩

/-- Witness of C5: the `read` request with message id 9 of client `c1`. -/
theorem acknowledgments_correlate_witness :
    ∃ body, unmarshalMessageBody exampleRead.Body = .ok body ∧
      ∃ ack, (readHandler exampleRead exampleWorld).2.node.writer.out =
          exampleWorld.node.writer.out ++ [ack] ∧
        IsAck ack exampleRead.Src "read_ok" body.MessageID :=
  acknowledgments_correlate.2.2.1 exampleWorld exampleRead
    (readHandler exampleRead exampleWorld).2 (by decide)

/-! ## Known values -/

/-- The `Write` calls of `broadcastHandler` on a decodable body, in order. -/
theorem broadcastHandler_writer (w : World) (msg : Message) (body : BroadcastBody)
    (hdec : unmarshalBroadcastBody msg.Body = .ok body) :
    (broadcastHandler msg w).2.node.writer =
      w.node.writer.writeAll (broadcastWrites w msg.Src body) := by
  have happ : ∀ (ls : List Message) (l : Message) (x : Writer),
      x.writeAll (ls ++ [l]) = ((x.writeAll ls).Write l).2 := by
    intro ls l
    induction ls with
    | nil => intro x; rfl
    | cons a rest ih => intro x; simp only [List.cons_append, Writer.writeAll]; exact ih _
  unfold broadcastWrites
  cases hk : messageIsKnown w.messages body.Message with
  | true =>
    simp only [broadcastHandler, hdec, hk, if_true]
    rw [Send_snd]
    rfl
  | false =>
    simp only [broadcastHandler, hdec, hk, Bool.false_eq_true, if_false]
    rw [Send_snd, floodLoop_eq, happ]
    rfl

/-- C6: a `broadcast` message whose value is already in the value set leaves
the value set, the topology, the id and the member list as they are; the only
`Write` is the `broadcast_ok` to the sender, and when it succeeds the output
grows by exactly that envelope. Hence a value delivered twice (by any two
senders) is stored once, acknowledged twice and flooded for the first delivery
only. -/
theorem known_value_only_acknowledged :
    (∀ (w : World) (msg : Message) (body : BroadcastBody),
      unmarshalBroadcastBody msg.Body = .ok body →
      messageIsKnown w.messages body.Message = true →
      (broadcastHandler msg w).2.messages = w.messages ∧
      (broadcastHandler msg w).2.node.topology = w.node.topology ∧
      (broadcastHandler msg w).2.node.id = w.node.id ∧
      (broadcastHandler msg w).2.node.nodes = w.node.nodes ∧
      (broadcastHandler msg w).2.node.writer =
        (w.node.writer.Write (ackMessage w.node.id msg.Src "broadcast_ok" body.MessageID)).2 ∧
      (w.node.writer.reliable = true →
        (broadcastHandler msg w).1 = none ∧
        (broadcastHandler msg w).2.node.writer.out =
          w.node.writer.out ++ [ackMessage w.node.id msg.Src "broadcast_ok" body.MessageID])) ∧
    (∀ (w : World) (msg1 msg2 : Message) (body1 body2 : BroadcastBody),
      unmarshalBroadcastBody msg1.Body = .ok body1 →
      unmarshalBroadcastBody msg2.Body = .ok body2 →
      body2.Message = body1.Message →
      messageIsKnown w.messages body1.Message = false →
      w.node.writer.reliable = true →
      (broadcastHandler msg2 (broadcastHandler msg1 w).2).2.messages =
        w.messages ++ [body1.Message] ∧
      (broadcastHandler msg2 (broadcastHandler msg1 w).2).2.node.writer.out =
        w.node.writer.out ++ floodMessages w.node.id msg1.Src body1.Message w.node.topology ++
          [ackMessage w.node.id msg1.Src "broadcast_ok" body1.MessageID,
           ackMessage w.node.id msg2.Src "broadcast_ok" body2.MessageID]) := by
  constructor
  · intro w msg body hdec hk
    have hw := broadcastHandler_writer w msg body hdec
    simp only [broadcastWrites, hk, if_true, List.nil_append, Writer.writeAll] at hw
    refine ⟨?_, ?_, ?_, ?_, hw, ?_⟩
    · simp only [broadcastHandler, hdec, hk, if_true]
    · simp only [broadcastHandler, hdec, hk, if_true]; rw [Send_snd]
    · simp only [broadcastHandler, hdec, hk, if_true]; rw [Send_snd]
    · simp only [broadcastHandler, hdec, hk, if_true]; rw [Send_snd]
    · intro hrel
      constructor
      · simp only [broadcastHandler, hdec, hk, if_true]
        rw [Send_reliable _ _ _ hrel]
      · rw [hw, Write_reliable _ _ hrel]
  · intro w msg1 msg2 body1 body2 hdec1 hdec2 hsame hnew hrel
    have hnot : body1.Message ∉ w.messages := by
      intro hm
      rw [(messageIsKnown_iff _ _).2 hm] at hnew
      cases hnew
    obtain ⟨w1, h1, hid, _, _, hrel1, hms, hout⟩ := broadcastHandler_reliable msg1 w body1 hdec1 hrel
    rw [h1]
    simp only [hnot, if_false] at hms hout
    obtain ⟨w2, h2, _, _, _, _, hms2, hout2⟩ := broadcastHandler_reliable msg2 w1 body2 hdec2 hrel1
    rw [h2]
    have hin : body2.Message ∈ w1.messages := by rw [hms, hsame]; simp
    simp only [hin, if_true] at hms2 hout2
    refine ⟨hms2.trans hms, ?_⟩
    simp only
    rw [hout2, hout, hid]
    simp [ackMessage, encode, jsonMarshal, marshalHeader, omitempty]

/-- Witness of C6: value 5 delivered by `n3` and then by `n2`. -/
theorem known_value_only_acknowledged_witness :
    (broadcastHandler (exampleBroadcast "n2" 5)
        (broadcastHandler (exampleBroadcast "n3" 5) exampleWorld).2).2.messages = [] ++ [5] ∧
    (broadcastHandler (exampleBroadcast "n2" 5)
        (broadcastHandler (exampleBroadcast "n3" 5) exampleWorld).2).2.node.writer.out =
      [] ++ floodMessages "n1" "n3" 5 ["n2"] ++
        [ackMessage "n1" "n3" "broadcast_ok" 0, ackMessage "n1" "n2" "broadcast_ok" 0] :=
  known_value_only_acknowledged.2 exampleWorld (exampleBroadcast "n3" 5) (exampleBroadcast "n2" 5)
    { Type_ := "broadcast", Message := 5 } { Type_ := "broadcast", Message := 5 }
    (by rfl) (by rfl) (by rfl) (by decide) (by decide)

/-! ## Handler registration -/

/-- C7: `Handle` returns an error exactly when the tag is `init` or is already
bound, and then the table is unchanged; otherwise it returns no error, binds
the tag to the handler and leaves every other tag as it was. -/
theorem Handle_error_iff (handlers : Handlers) (t : messageType) (h : messageHandler) :
    ((Handle handlers t h).1 ≠ none ↔ (t = "init" ∨ (handlers t).isSome = true)) ∧
    ((Handle handlers t h).1 ≠ none → (Handle handlers t h).2 = handlers) ∧
    ((Handle handlers t h).1 = none →
      (Handle handlers t h).2 t = some h ∧
      ∀ t2, t2 ≠ t → (Handle handlers t h).2 t2 = handlers t2) := by
  unfold Handle
  by_cases hi : t = "init"
  · simp [hi]
  · by_cases hb : (handlers t).isSome = true
    · simp [hi, hb]
    · simp only [hi, hb, if_false, Bool.false_or, decide_False, Bool.false_eq_true]
      simp
      intro t2 ht2
      simp [ht2]

/-! ## Acknowledging broadcasts -/

/-- C8, as stated, fails: the `broadcast` envelope that a neighbour floods
carries no `msg_id`, and `broadcastHandler` still answers it with a
`broadcast_ok`. -/
theorem broadcast_ok_sent_without_msg_id :
    (exampleBroadcast "n2" 5).Body =
      .object { type := .value "broadcast", msg_id := .absent, message := .value 5 } ∧
    broadcastHandler (exampleBroadcast "n2" 5) exampleWorld =
      (none, { node := { exampleWorld.node with
                 writer := { out := [{ Src := "n1", Dst := "n2",
                                       Body := .object { type := .value "broadcast_ok" } }] } },
               messages := [5] }) := by
  decide

theorem filter_isBroadcastOk_floodMessages (id src : String) (v : Int) (T : List String) :
    (floodMessages id src v T).filter isBroadcastOk = [] := by
  rw [List.filter_eq_nil_iff]
  intro f hf
  simp only [floodMessages, List.mem_map] at hf
  obtain ⟨n, _, rfl⟩ := hf
  simp [isBroadcastOk]

theorem decodeHeader_absent_msg_id (o : JsonObject) (hd : MessageBody)
    (hh : decodeHeader o = some hd) (habs : o.msg_id = .absent) : hd.MessageID = 0 := by
  unfold decodeHeader at hh
  rw [habs] at hh
  cases ht : o.type.decode "" with
  | none => rw [ht] at hh; simp at hh
  | some t =>
    cases hr : o.in_reply_to.decode 0 with
    | none => rw [ht, hr] at hh; simp [Field.decode] at hh
    | some r =>
      rw [ht, hr] at hh
      simp [Field.decode] at hh
      rw [← hh]

/-- C8 amended: for every `broadcast` message that decodes, with or without a
`msg_id`, the `Write` calls of `broadcastHandler` contain exactly one
`broadcast_ok`, the last call, addressed to the sender with `in_reply_to` equal
to the decoded message id (zero when `msg_id` is missing); when the writes
succeed, exactly this list of envelopes is appended to the output. -/
theorem broadcast_always_acknowledged (w : World) (msg : Message) (body : BroadcastBody)
    (hdec : unmarshalBroadcastBody msg.Body = .ok body) :
    (broadcastHandler msg w).2.node.writer =
      w.node.writer.writeAll (broadcastWrites w msg.Src body) ∧
    (broadcastWrites w msg.Src body).filter isBroadcastOk =
      [ackMessage w.node.id msg.Src "broadcast_ok" body.MessageID] ∧
    (broadcastWrites w msg.Src body).getLast? =
      some (ackMessage w.node.id msg.Src "broadcast_ok" body.MessageID) ∧
    (w.node.writer.reliable = true →
      (broadcastHandler msg w).1 = none ∧
      (broadcastHandler msg w).2.node.writer.out =
        w.node.writer.out ++ broadcastWrites w msg.Src body) ∧
    (∀ o, msg.Body = .object o → o.msg_id = .absent → body.MessageID = 0) := by
  have hw := broadcastHandler_writer w msg body hdec
  refine ⟨hw, ?_, ?_, ?_, ?_⟩
  · unfold broadcastWrites
    rw [List.filter_append]
    have hack : [ackMessage w.node.id msg.Src "broadcast_ok" body.MessageID].filter isBroadcastOk =
        [ackMessage w.node.id msg.Src "broadcast_ok" body.MessageID] := by
      simp [ackMessage, isBroadcastOk]
    rw [hack]
    cases messageIsKnown w.messages body.Message
    · simp [filter_isBroadcastOk_floodMessages]
    · simp
  · simp [broadcastWrites]
  · intro hrel
    obtain ⟨w1, h1, _⟩ := broadcastHandler_reliable msg w body hdec hrel
    refine ⟨by rw [h1], ?_⟩
    rw [hw, (writeAll_reliable _ _ hrel).1]
  · intro o ho habs
    rw [ho] at hdec
    simp only [unmarshalBroadcastBody] at hdec
    cases hh : decodeHeader o with
    | none => simp [hh] at hdec
    | some hd =>
      cases hv : o.message.decode 0 with
      | none => simp [hh, hv] at hdec
      | some v =>
        simp only [hh, hv] at hdec
        cases hdec
        exact decodeHeader_absent_msg_id o hd hh habs

/-- Witness of C8 amended: the flooded envelope without `msg_id`. -/
theorem broadcast_always_acknowledged_witness :
    (broadcastWrites exampleWorld "n2" { Type_ := "broadcast", Message := 5 }).filter isBroadcastOk =
      [ackMessage "n1" "n2" "broadcast_ok" 0] :=
  (broadcast_always_acknowledged exampleWorld (exampleBroadcast "n2" 5)
    { Type_ := "broadcast", Message := 5 } (by rfl)).2.1

/-! ## Errors of sends -/

/-- C9 fails for the flood: on node `n1` with neighbour `n2` whose next `Write`
fails, the flood `Send` of a new value returns an error, yet
`broadcastHandler` returns none and `Run` ends without error; the neighbour
never gets the value. -/
theorem flood_send_error_swallowed :
    (failingWorld.node.Send "n2" (.broadcastBody { Type_ := "broadcast", Message := 6 })).1 =
      some "error writing message to writer: write failed" ∧
    broadcastHandler (exampleBroadcast "n3" 6) failingWorld =
      (none, { node := { exampleWorld.node with
                 writer := { out := [ackMessage "n1" "n3" "broadcast_ok" 0] } },
               messages := [6] }) ∧
    Run mainHandlers none [.message (exampleBroadcast "n3" 6)] failingWorld =
      (none, { node := { exampleWorld.node with
                 writer := { out := [ackMessage "n1" "n3" "broadcast_ok" 0] } },
               messages := [6] }) := by
  decide

/-! ## Initialisation -/

theorem unmarshalInitBody_header (raw : RawMessage) (body : InitBody)
    (h : unmarshalInitBody raw = .ok body) :
    unmarshalMessageBody raw = .ok body.toMessageBody := by
  cases raw with
  | invalid => simp [unmarshalInitBody] at h
  | object o =>
    simp only [unmarshalInitBody, unmarshalMessageBody] at h ⊢
    cases hh : decodeHeader o with
    | none => simp [hh] at h
    | some hd =>
      cases hi : o.node_id.decode "" with
      | none => simp [hh, hi] at h
      | some id =>
        cases hn : o.node_ids.decode [] with
        | none => simp [hh, hi, hn] at h
        | some ns =>
          simp only [hh, hi, hn] at h ⊢
          cases h
          rfl

/-- C10, as stated, fails: an `init` message whose `node_id` is the empty
string is processed without error and answered with `init_ok`, yet the node is
not initialised and the `read` request that follows is rejected as received
before init. -/
theorem init_with_empty_node_id_not_initialised :
    (runLine mainHandlers {} (.message (exampleInit ""))).1 = none ∧
    (runLine mainHandlers {} (.message (exampleInit ""))).2.node.writer.out =
      [ackMessage "" "c1" "init_ok" 1] ∧
    (runLine mainHandlers {} (.message (exampleInit ""))).2.node.isInitialised = false ∧
    (Run mainHandlers none [.message (exampleInit ""), .message exampleRead] {}).1 =
      some "received message of type read before init" := by
  decide

/-- C10 amended: every `init` message with a non-empty `node_id` that `Run`
processes without error leaves the node initialised, with that id and the
member list of the message; a following message of another type that has a
registered handler is then passed to that handler, and the outcome of the line
is the outcome of the handler. -/
theorem init_initialises (handlers : Handlers) (w w1 : World) (msg : Message) (body : InitBody)
    (hdec : unmarshalInitBody msg.Body = .ok body) (hty : body.Type_ = "init")
    (hid : body.NodeID ≠ "")
    (hrun : runLine handlers w (.message msg) = (none, w1)) :
    w1.node.isInitialised = true ∧ w1.node.id = body.NodeID ∧ w1.node.nodes = body.Nodes ∧
    ∀ (m2 : Message) (hdr2 : MessageBody) (handler : messageHandler),
      unmarshalMessageBody m2.Body = .ok hdr2 → hdr2.Type_ ≠ "init" →
      handlers hdr2.Type_ = some handler →
      runLine handlers w1 (.message m2) =
        (match handler m2 w1 with
          | (some err, w2) =>
            (some ("error handling message of type " ++ hdr2.Type_ ++ ": " ++ err), w2)
          | (none, w2) => (none, w2)) ∧
      ∀ (readErr : Option GoError) (rest : List Line),
        Run handlers readErr (.message msg :: .message m2 :: rest) w =
          (match handler m2 w1 with
            | (some err, w2) =>
              (some ("error handling message of type " ++ hdr2.Type_ ++ ": " ++ err), w2)
            | (none, w2) => Run handlers readErr rest w2) := by
  have hhdr := unmarshalInitBody_header _ _ hdec
  have hw1 : w1.node = ((w.node.Init body.NodeID body.Nodes).Send msg.Src
      (.messageBody { Type_ := "init_ok", InReplyTo := body.MessageID })).2 := by
    simp only [runLine, unmarshalMessage, hhdr, hty, if_true, defaultInitHandler, hdec] at hrun
    split at hrun
    · simp at hrun
    · rename_i node1 heq
      obtain ⟨_, rfl⟩ := Prod.mk.inj hrun
      rw [heq]
  have hidw : w1.node.id = body.NodeID := by rw [hw1, Send_snd]; rfl
  have hnodes : w1.node.nodes = body.Nodes := by rw [hw1, Send_snd]; rfl
  have hinit : w1.node.isInitialised = true := by
    simp [Node.isInitialised, hidw, hid]
  refine ⟨hinit, hidw, hnodes, ?_⟩
  intro m2 hdr2 handler hdec2 hne hh
  have hstep := runLine_dispatch handlers w1 m2 hdr2 handler hdec2 hne hinit hh
  refine ⟨hstep, ?_⟩
  intro readErr rest
  simp only [Run, hrun, hstep]
  rcases handler m2 w1 with ⟨e, w2⟩
  cases e <;> rfl

/-- Witness of C10 amended: `init` for node `n1`, then a `read` request. -/
theorem init_initialises_witness :
    (runLine mainHandlers {} (.message (exampleInit "n1"))).2.node.isInitialised = true ∧
    (runLine mainHandlers {} (.message (exampleInit "n1"))).2.node.id = "n1" :=
  ⟨(init_initialises mainHandlers {} (runLine mainHandlers {} (.message (exampleInit "n1"))).2
      (exampleInit "n1")
      { Type_ := "init", MessageID := 1, NodeID := "n1", Nodes := ["n1", "n2"] }
      (by rfl) (by rfl) (by decide) (by decide)).1,
   (init_initialises mainHandlers {} (runLine mainHandlers {} (.message (exampleInit "n1"))).2
      (exampleInit "n1")
      { Type_ := "init", MessageID := 1, NodeID := "n1", Nodes := ["n1", "n2"] }
      (by rfl) (by rfl) (by decide) (by decide)).2.1⟩

/-! ## Identity of the node -/

theorem Send_id (n : Node) (dst : String) (p : Payload) :
    (n.Send dst p).2.id = n.id ∧ (n.Send dst p).2.nodes = n.nodes ∧
      (n.Send dst p).2.topology = n.topology := by
  rw [Send_snd]
  exact ⟨rfl, rfl, rfl⟩

theorem mainHandlers_cases (t : messageType) (h : messageHandler)
    (hh : mainHandlers t = some h) :
    (t = "topology" ∧ h = topologyHandler) ∨ (t = "read" ∧ h = readHandler) ∨
      (t = "broadcast" ∧ h = broadcastHandler) ∨
      (t = "broadcast_ok" ∧ h = broadcastOkHandler) := by
  simp only [mainHandlers, Handle, noHandlers] at hh
  by_cases h1 : t = "broadcast_ok"
  · subst h1
    simp at hh
    exact Or.inr (Or.inr (Or.inr ⟨rfl, hh.symm⟩))
  · by_cases h2 : t = "broadcast"
    · subst h2
      simp at hh
      exact Or.inr (Or.inr (Or.inl ⟨rfl, hh.symm⟩))
    · by_cases h3 : t = "read"
      · subst h3
        simp at hh
        exact Or.inr (Or.inl ⟨rfl, hh.symm⟩)
      · by_cases h4 : t = "topology"
        · subst h4
          simp at hh
          exact Or.inl ⟨rfl, hh.symm⟩
        · simp [h1, h2, h3, h4] at hh

theorem topologyHandler_identity (m : Message) (w : World) :
    (topologyHandler m w).2.node.id = w.node.id ∧
      (topologyHandler m w).2.node.nodes = w.node.nodes ∧
      (topologyHandler m w).2.messages = w.messages := by
  unfold topologyHandler
  cases unmarshalTopologyBody m.Body with
  | error e => exact ⟨rfl, rfl, rfl⟩
  | ok body =>
    simp only
    cases mapIndex body.Topology w.node.ID with
    | none => exact ⟨rfl, rfl, rfl⟩
    | some T =>
      simp only
      rw [Send_snd]
      refine ⟨?_, ?_, ?_⟩ <;> first | rfl | trivial

theorem readHandler_frame (m : Message) (w : World) :
    (readHandler m w).2.node.id = w.node.id ∧
      (readHandler m w).2.node.nodes = w.node.nodes ∧
      (readHandler m w).2.node.topology = w.node.topology ∧
      (readHandler m w).2.messages = w.messages := by
  unfold readHandler
  cases unmarshalMessageBody m.Body with
  | error e => exact ⟨rfl, rfl, rfl, rfl⟩
  | ok body =>
    simp only
    rw [Send_snd]
    refine ⟨?_, ?_, ?_, ?_⟩ <;> first | rfl | trivial

theorem broadcastHandler_frame (m : Message) (w : World) :
    (broadcastHandler m w).2.node.id = w.node.id ∧
      (broadcastHandler m w).2.node.nodes = w.node.nodes ∧
      (broadcastHandler m w).2.node.topology = w.node.topology := by
  unfold broadcastHandler
  cases unmarshalBroadcastBody m.Body with
  | error e => exact ⟨rfl, rfl, rfl⟩
  | ok body =>
    simp only
    cases messageIsKnown w.messages body.Message with
    | true =>
      simp only [if_true]
      rw [Send_snd]
      exact ⟨rfl, rfl, rfl⟩
    | false =>
      simp only [Bool.false_eq_true, if_false]
      rw [Send_snd, floodLoop_eq]
      exact ⟨rfl, rfl, rfl⟩

theorem mainHandlers_preserve : PreservesIdentity mainHandlers := by
  intro t h hh m w
  rcases mainHandlers_cases t h hh with ⟨_, rfl⟩ | ⟨_, rfl⟩ | ⟨_, rfl⟩ | ⟨_, rfl⟩
  · exact ⟨(topologyHandler_identity m w).1, (topologyHandler_identity m w).2.1⟩
  · exact ⟨(readHandler_frame m w).1, (readHandler_frame m w).2.1⟩
  · exact ⟨(broadcastHandler_frame m w).1, (broadcastHandler_frame m w).2.1⟩
  · exact ⟨rfl, rfl⟩

theorem runLine_identity (handlers : Handlers) (hpres : PreservesIdentity handlers)
    (w : World) (line : Line) (hty : lineType line ≠ some "init") :
    (runLine handlers w line).2.node.id = w.node.id ∧
      (runLine handlers w line).2.node.nodes = w.node.nodes := by
  cases line with
  | malformed => exact ⟨rfl, rfl⟩
  | message m =>
    simp only [lineType, unmarshalMessage] at hty
    simp only [runLine, unmarshalMessage]
    cases hdec : unmarshalMessageBody m.Body with
    | error e => exact ⟨rfl, rfl⟩
    | ok hdr =>
      simp only [hdec] at hty
      have hne : hdr.Type_ ≠ "init" := fun h => hty (by rw [h])
      simp only [hne, if_false]
      cases hinit : w.node.isInitialised with
      | false => exact ⟨rfl, rfl⟩
      | true =>
        simp only [Bool.not_true, Bool.false_eq_true, if_false]
        cases hh : handlers hdr.Type_ with
        | none => exact ⟨rfl, rfl⟩
        | some handler =>
          have hp := hpres _ _ hh m w
          simp only
          rcases hr : handler m w with ⟨e, w1⟩
          rw [hr] at hp
          cases e <;> exact hp

/-- C11, as stated, fails: after `init` has named the node `n1` in the cluster
`[n1, n2]`, a second `init` message is handled like the first and replaces the
id by `n9` and the member list by `[n7, n8, n9]`. -/
theorem second_init_resets_identity :
    (Run mainHandlers none [.message (exampleInit "n1")] {}).2.node.id = "n1" ∧
    (Run mainHandlers none [.message (exampleInit "n1")] {}).2.node.nodes = ["n1", "n2"] ∧
    (Run mainHandlers none
      [.message (exampleInit "n1"), .message exampleSecondInit] {}).1 = none ∧
    (Run mainHandlers none
      [.message (exampleInit "n1"), .message exampleSecondInit] {}).2.node.id = "n9" ∧
    (Run mainHandlers none
      [.message (exampleInit "n1"), .message exampleSecondInit] {}).2.node.nodes =
        ["n7", "n8", "n9"] := by
  decide

/-- C11 amended: with handlers that do not touch the id and the member list
(those of the broadcast service are such), a line that is not an `init`
message changes neither, nor does any sequence of such lines processed by
`Run`; an `init` message that decodes, the first or a later one, sets the id
and the member list to its `node_id` and `node_ids`. -/
theorem identity_changed_only_by_init (handlers : Handlers)
    (hpres : PreservesIdentity handlers) :
    (∀ (w : World) (line : Line), lineType line ≠ some "init" →
      (runLine handlers w line).2.node.id = w.node.id ∧
      (runLine handlers w line).2.node.nodes = w.node.nodes) ∧
    (∀ (readErr : Option GoError) (lines : List Line) (w : World),
      (∀ l ∈ lines, lineType l ≠ some "init") →
      (Run handlers readErr lines w).2.node.id = w.node.id ∧
      (Run handlers readErr lines w).2.node.nodes = w.node.nodes) ∧
    (∀ (w : World) (msg : Message) (body : InitBody),
      unmarshalInitBody msg.Body = .ok body → body.Type_ = "init" →
      (runLine handlers w (.message msg)).2.node.id = body.NodeID ∧
      (runLine handlers w (.message msg)).2.node.nodes = body.Nodes) := by
  refine ⟨runLine_identity handlers hpres, ?_, ?_⟩
  · intro readErr lines
    induction lines with
    | nil =>
      intro w _
      cases readErr <;> exact ⟨rfl, rfl⟩
    | cons l rest ih =>
      intro w hall
      have h1 := runLine_identity handlers hpres w l (hall l (List.mem_cons_self _ _))
      simp only [Run]
      rcases hr : runLine handlers w l with ⟨e, w1⟩
      rw [hr] at h1
      cases e with
      | some err => exact h1
      | none =>
        have h2 := ih w1 (fun x hx => hall x (List.mem_cons_of_mem _ hx))
        exact ⟨h2.1.trans h1.1, h2.2.trans h1.2⟩
  · intro w msg body hdec hty
    have hhdr := unmarshalInitBody_header _ _ hdec
    have hsend := Send_id (w.node.Init body.NodeID body.Nodes) msg.Src
      (.messageBody { Type_ := "init_ok", InReplyTo := body.MessageID })
    simp only [runLine, unmarshalMessage, hhdr, hty, if_true, defaultInitHandler, hdec]
    split
    · rename_i err node1 heq
      simp only
      rw [heq] at hsend
      exact ⟨hsend.1, hsend.2.1⟩
    · rename_i node1 heq
      simp only
      rw [heq] at hsend
      exact ⟨hsend.1, hsend.2.1⟩

/-- Witness of C11 amended: the broadcast service after `init`, handling a
`read` and a `broadcast`. -/
theorem identity_changed_only_by_init_witness :
    (Run mainHandlers none [.message exampleRead, .message (exampleBroadcast "n3" 5)]
      exampleWorld).2.node.id = "n1" ∧
    (Run mainHandlers none [.message exampleRead, .message (exampleBroadcast "n3" 5)]
      exampleWorld).2.node.nodes = ["n1", "n2"] :=
  (identity_changed_only_by_init mainHandlers mainHandlers_preserve).2.1 none
    [.message exampleRead, .message (exampleBroadcast "n3" 5)] exampleWorld (by decide)

/-! ## The read loop -/

theorem Run_errorFree (handlers : Handlers) (readErr : Option GoError) (pre rest : List Line)
    (w : World) (h : errorFree handlers w pre = true) :
    Run handlers readErr (pre ++ rest) w = Run handlers readErr rest (processAll handlers w pre) := by
  induction pre generalizing w with
  | nil => rfl
  | cons l ls ih =>
    simp only [errorFree, Bool.and_eq_true, Option.isNone_iff_eq_none] at h
    simp only [List.cons_append, Run, processAll, List.foldl_cons]
    rcases hr : runLine handlers w l with ⟨e, w1⟩
    rw [hr] at h
    simp only at h
    rw [h.1]
    exact ih w1 h.2

/-- Each cause of failure makes `runLine` return its error and world. -/
theorem runLine_of_lineFails (handlers : Handlers) (w : World) (line : Line) (err : GoError)
    (w1 : World) (h : LineFails handlers w line err w1) :
    runLine handlers w line = (some err, w1) := by
  cases h with
  | envelope e hm => simp [runLine, hm]
  | body msg e hm hb => simp [runLine, hm, hb]
  | init msg hdr e node hm hb hty hi => simp [runLine, hm, hb, hty, hi]
  | beforeInit msg hdr hm hb hty hun => simp [runLine, hm, hb, hty, hun]
  | noHandler msg hdr hm hb hty hinit hh => simp [runLine, hm, hb, hty, hinit, hh]
  | handler msg hdr h e w2 hm hb hty hinit hh hr => simp [runLine, hm, hb, hty, hinit, hh, hr]

/-- An error of `runLine` has one of the causes of failure. -/
theorem lineFails_of_runLine (handlers : Handlers) (w : World) (line : Line)
    (h : (runLine handlers w line).1 ≠ none) :
    ∃ err w1, LineFails handlers w line err w1 := by
  cases hm : unmarshalMessage line with
  | error e => exact ⟨_, _, .envelope line e hm⟩
  | ok msg =>
    cases hb : unmarshalMessageBody msg.Body with
    | error e => exact ⟨_, _, .body line msg e hm hb⟩
    | ok hdr =>
      by_cases hty : hdr.Type_ = "init"
      · rcases hi : defaultInitHandler w.node msg with ⟨e, node⟩
        cases e with
        | none =>
          exfalso
          apply h
          simp [runLine, hm, hb, hty, hi]
        | some e => exact ⟨_, _, .init line msg hdr e node hm hb hty hi⟩
      · cases hinit : w.node.isInitialised with
        | false => exact ⟨_, _, .beforeInit line msg hdr hm hb hty hinit⟩
        | true =>
          cases hh : handlers hdr.Type_ with
          | none => exact ⟨_, _, .noHandler line msg hdr hm hb hty hinit hh⟩
          | some handler =>
            rcases hr : handler msg w with ⟨e, w1⟩
            cases e with
            | none =>
              exfalso
              apply h
              simp [runLine, hm, hb, hty, hinit, hh, hr]
            | some e => exact ⟨_, _, .handler line msg hdr handler e w1 hm hb hty hinit hh hr⟩

theorem runLine_none_iff (handlers : Handlers) (w : World) (line : Line) :
    (runLine handlers w line).1 = none ↔ ∀ err w1, ¬ LineFails handlers w line err w1 := by
  constructor
  · intro h err w1 hf
    rw [runLine_of_lineFails handlers w line err w1 hf] at h
    cases h
  · intro h
    by_contra hne
    obtain ⟨err, w1, hf⟩ := lineFails_of_runLine handlers w line hne
    exact h err w1 hf

theorem errorFree_iff_noFailure (handlers : Handlers) (lines : List Line) (w : World) :
    errorFree handlers w lines = true ↔ NoFailure handlers w lines := by
  induction lines generalizing w with
  | nil =>
    simp only [errorFree, NoFailure, true_iff]
    intro a b c h
    cases a <;> cases h
  | cons l ls ih =>
    simp only [errorFree, Bool.and_eq_true, Option.isNone_iff_eq_none]
    rw [runLine_none_iff, ih]
    constructor
    · rintro ⟨h1, h2⟩ a b c hsplit err w1
      cases a with
      | nil =>
        simp only [List.nil_append, List.cons.injEq] at hsplit
        obtain ⟨rfl, _⟩ := hsplit
        exact h1 err w1
      | cons x a1 =>
        simp only [List.cons_append, List.cons.injEq] at hsplit
        obtain ⟨rfl, hls⟩ := hsplit
        exact h2 a1 b c hls err w1
    · intro h
      constructor
      · exact h [] l ls rfl
      · intro a b c hls err w1
        exact h (l :: a) b c (by rw [hls]; rfl) err w1

/-- C12: `Run` is fail-fast. Each listed cause (an envelope or a body that
does not decode, a message of another type before init, a type without a
registered handler, a handler or the init handler that returns an error)
makes `runLine` return an error, and `runLine` returns an error for no other
reason. When no line before the k-th fails and the k-th line fails for one of
these causes, `Run` returns the error of that cause and the world is the one
reached after lines 1..k, whatever follows the k-th line and whatever the
reader reports. When no line fails, `Run` hands every line in arrival order
to the loop body, ends in the world reached after the last line and returns
no error at end of stream. -/
theorem Run_fail_fast (handlers : Handlers) :
    (∀ (w : World) (line : Line) (err : GoError) (w1 : World),
      LineFails handlers w line err w1 → runLine handlers w line = (some err, w1)) ∧
    (∀ (w : World) (line : Line),
      (runLine handlers w line).1 ≠ none → ∃ err w1, LineFails handlers w line err w1) ∧
    (∀ (readErr : Option GoError) (pre : List Line) (l : Line) (rest : List Line) (w : World)
        (err : GoError) (w1 : World),
      NoFailure handlers w pre →
      LineFails handlers (processAll handlers w pre) l err w1 →
      Run handlers readErr (pre ++ l :: rest) w = (some err, w1) ∧
      processAll handlers w (pre ++ [l]) = w1) ∧
    (∀ (readErr : Option GoError) (pre : List Line) (l : Line) (rest : List Line) (w : World)
        (err : GoError),
      errorFree handlers w pre = true →
      (runLine handlers (processAll handlers w pre) l).1 = some err →
      Run handlers readErr (pre ++ l :: rest) w =
        (some err, processAll handlers w (pre ++ [l]))) ∧
    (∀ (lines : List Line) (w : World),
      NoFailure handlers w lines →
      Run handlers none lines w = (none, processAll handlers w lines)) ∧
    (∀ (lines : List Line) (w : World),
      errorFree handlers w lines = true →
      Run handlers none lines w = (none, processAll handlers w lines)) ∧
    (∀ (lines : List Line) (w : World),
      errorFree handlers w lines = true ↔ NoFailure handlers w lines) := by
  have hold : ∀ (readErr : Option GoError) (pre : List Line) (l : Line) (rest : List Line)
      (w : World) (err : GoError),
      errorFree handlers w pre = true →
      (runLine handlers (processAll handlers w pre) l).1 = some err →
      Run handlers readErr (pre ++ l :: rest) w =
        (some err, processAll handlers w (pre ++ [l])) := by
    intro readErr pre l rest w err hpre herr
    rw [Run_errorFree handlers readErr pre (l :: rest) w hpre]
    simp only [Run, processAll, List.foldl_append, List.foldl_cons, List.foldl_nil]
    rcases hr : runLine handlers (List.foldl (fun w1 l => (runLine handlers w1 l).2) w pre) l
      with ⟨e, w1⟩
    simp only [processAll, hr] at herr
    rw [herr]
  have hnone : ∀ (lines : List Line) (w : World),
      errorFree handlers w lines = true →
      Run handlers none lines w = (none, processAll handlers w lines) := by
    intro lines w h
    have := Run_errorFree handlers none lines [] w h
    rw [List.append_nil] at this
    rw [this]
    rfl
  refine ⟨runLine_of_lineFails handlers, lineFails_of_runLine handlers, ?_, hold, ?_, hnone,
    fun lines w => errorFree_iff_noFailure handlers lines w⟩
  · intro readErr pre l rest w err w1 hpre hf
    have hrun := runLine_of_lineFails handlers _ l err w1 hf
    have hfree := (errorFree_iff_noFailure handlers pre w).2 hpre
    have h1 := hold readErr pre l rest w err hfree (by rw [hrun])
    have h2 : processAll handlers w (pre ++ [l]) = w1 := by
      simp only [processAll, List.foldl_append, List.foldl_cons, List.foldl_nil]
      simp only [processAll] at hrun
      rw [hrun]
    rw [h1, h2]
    exact ⟨rfl, rfl⟩
  · intro lines w h
    exact hnone lines w ((errorFree_iff_noFailure handlers lines w).2 h)

/-- Witness of C12: after `init`, a line of an unregistered type stops the
loop; the `broadcast` line behind it is not handled. -/
theorem Run_fail_fast_witness :
    Run mainHandlers none
        ([.message (exampleInit "n1")] ++
          .message exampleEcho :: [.message (exampleBroadcast "n3" 5)]) {} =
      (some "no handler for message type echo",
        processAll mainHandlers {} ([.message (exampleInit "n1")] ++ [.message exampleEcho])) ∧
    processAll mainHandlers {} ([.message (exampleInit "n1")] ++ [.message exampleEcho]) =
      processAll mainHandlers {} [.message (exampleInit "n1")] :=
  have h := (Run_fail_fast mainHandlers).2.2.1 none [.message (exampleInit "n1")]
    (.message exampleEcho) [.message (exampleBroadcast "n3" 5)] {}
    "no handler for message type echo"
    (processAll mainHandlers {} [.message (exampleInit "n1")])
    (((Run_fail_fast mainHandlers).2.2.2.2.2.2 [.message (exampleInit "n1")] {}).1 (by decide))
    (LineFails.noHandler (.message exampleEcho) exampleEcho
      { Type_ := "echo", MessageID := 4 } (by rfl) (by rfl) (by decide) (by decide) (by rfl))
  ⟨h.2 ▸ h.1, h.2⟩

/-! ## Reading -/

/-- C13: `readHandler` leaves the value set, the id, the member list and the
topology as they are; on a `read` message that decodes it makes exactly one
`Write`, of a `read_ok` envelope to the requester whose `messages` key decodes
to the current value set, in the order in which the values were stored, and
when the write succeeds the output grows by exactly that envelope. -/
theorem readHandler_snapshot (w : World) (msg : Message) (body : MessageBody)
    (hdec : unmarshalMessageBody msg.Body = .ok body) :
    (readHandler msg w).2.messages = w.messages ∧
    (readHandler msg w).2.node.id = w.node.id ∧
    (readHandler msg w).2.node.nodes = w.node.nodes ∧
    (readHandler msg w).2.node.topology = w.node.topology ∧
    (readHandler msg w).2.node.writer =
      (w.node.writer.Write (readReply w.node.id msg.Src body.MessageID w.messages)).2 ∧
    (w.node.writer.reliable = true →
      (readHandler msg w).1 = none ∧
      (readHandler msg w).2.node.writer.out =
        w.node.writer.out ++ [readReply w.node.id msg.Src body.MessageID w.messages]) ∧
    (readReply w.node.id msg.Src body.MessageID w.messages).Dst = msg.Src ∧
    ∃ o, (readReply w.node.id msg.Src body.MessageID w.messages).Body = .object o ∧
      o.type = .value "read_ok" ∧ o.in_reply_to.decode 0 = some body.MessageID ∧
      o.messages.decode [] = some w.messages := by
  have hf := readHandler_frame msg w
  have hw : (readHandler msg w).2.node.writer =
      (w.node.writer.Write (readReply w.node.id msg.Src body.MessageID w.messages)).2 := by
    simp only [readHandler, hdec]
    rw [Send_snd]
    rfl
  refine ⟨hf.2.2.2, hf.1, hf.2.1, hf.2.2.1, hw, ?_, rfl, _, rfl, rfl, decode_omitempty _, ?_⟩
  · intro hrel
    constructor
    · simp only [readHandler, hdec]
      rw [Send_reliable _ _ _ hrel]
    · rw [hw, Write_reliable _ _ hrel]
  · by_cases hm : w.messages = []
    · simp [hm, Field.decode]
    · simp [hm, Field.decode]

/-- Witness of C13: a `read` request on a node that stores 7 and 3. -/
theorem readHandler_snapshot_witness :
    (readHandler exampleRead { exampleWorld with messages := [7, 3] }).2.node.writer.out =
      [] ++ [readReply "n1" "c1" 9 [7, 3]] :=
  ((readHandler_snapshot { exampleWorld with messages := [7, 3] } exampleRead
    { Type_ := "read", MessageID := 9 } (by rfl)).2.2.2.2.2.1 (by decide)).2

/-! ## Growth of the value set -/

/-- C14: whichever handler of the broadcast service handles a message, the
value set before is a prefix of the value set after; it is either unchanged
or, for the `broadcast` handler on a value that was not stored, extended at
the end by that one value. -/
theorem value_set_append_only (t : messageType) (handler : messageHandler)
    (hh : mainHandlers t = some handler) (msg : Message) (w : World) :
    w.messages <+: (handler msg w).2.messages ∧
    ((handler msg w).2.messages = w.messages ∨
      (t = "broadcast" ∧ ∃ body, unmarshalBroadcastBody msg.Body = .ok body ∧
        body.Message ∉ w.messages ∧
        (handler msg w).2.messages = w.messages ++ [body.Message])) := by
  have key : (handler msg w).2.messages = w.messages ∨
      (t = "broadcast" ∧ ∃ body, unmarshalBroadcastBody msg.Body = .ok body ∧
        body.Message ∉ w.messages ∧
        (handler msg w).2.messages = w.messages ++ [body.Message]) := by
    rcases mainHandlers_cases t handler hh with ⟨_, rfl⟩ | ⟨_, rfl⟩ | ⟨ht, rfl⟩ | ⟨_, rfl⟩
    · exact Or.inl (topologyHandler_identity msg w).2.2
    · exact Or.inl (readHandler_frame msg w).2.2.2
    · cases hdec : unmarshalBroadcastBody msg.Body with
      | error e =>
        left
        simp only [broadcastHandler, hdec]
      | ok body =>
        cases hk : messageIsKnown w.messages body.Message with
        | true =>
          left
          simp only [broadcastHandler, hdec, hk, if_true]
        | false =>
          right
          refine ⟨ht, body, rfl, ?_, ?_⟩
          · intro hm
            rw [(messageIsKnown_iff _ _).2 hm] at hk
            cases hk
          · simp only [broadcastHandler, hdec, hk, Bool.false_eq_true, if_false]
    · exact Or.inl rfl
  refine ⟨?_, key⟩
  rcases key with h | ⟨_, body, _, _, h⟩
  · rw [h]
  · rw [h]
    exact List.prefix_append _ _

/-- Witness of C14: the `broadcast` handler on a node that stores 7. -/
theorem value_set_append_only_witness :
    [7] <+: (broadcastHandler (exampleBroadcast "n3" 5)
      { exampleWorld with messages := [7] }).2.messages :=
  (value_set_append_only "broadcast" broadcastHandler mainHandlers_broadcast
    (exampleBroadcast "n3" 5) { exampleWorld with messages := [7] }).1

/-! ## Acknowledgments of neighbours -/

theorem mainHandlers_broadcast_ok : mainHandlers "broadcast_ok" = some broadcastOkHandler := by
  simp [mainHandlers, Handle, noHandlers]

/-- C15: on an initialised node of the broadcast service, a `broadcast_ok`
message from any sender with any `in_reply_to` is passed to the registered
handler, which returns no error and leaves the world (value set, topology,
output) as it is; `Run` goes on with the next line. -/
theorem broadcast_ok_absorbed (w : World) (msg : Message) (hdr : MessageBody)
    (hinit : w.node.isInitialised = true)
    (hdec : unmarshalMessageBody msg.Body = .ok hdr) (hty : hdr.Type_ = "broadcast_ok") :
    mainHandlers hdr.Type_ = some broadcastOkHandler ∧
    broadcastOkHandler msg w = (none, w) ∧
    runLine mainHandlers w (.message msg) = (none, w) ∧
    ∀ (readErr : Option GoError) (rest : List Line),
      Run mainHandlers readErr (.message msg :: rest) w = Run mainHandlers readErr rest w := by
  have hh : mainHandlers hdr.Type_ = some broadcastOkHandler := by
    rw [hty]; exact mainHandlers_broadcast_ok
  have hne : hdr.Type_ ≠ "init" := by rw [hty]; decide
  have hstep := runLine_dispatch mainHandlers w msg hdr broadcastOkHandler hdec hne hinit hh
  have hstep2 : runLine mainHandlers w (.message msg) = (none, w) := by rw [hstep]; rfl
  refine ⟨hh, rfl, hstep2, ?_⟩
  intro readErr rest
  simp only [Run, hstep2]

/-- Witness of C15: the acknowledgment of neighbour `n2`, followed by a
`read` request. -/
theorem broadcast_ok_absorbed_witness :
    Run mainHandlers none [.message exampleBroadcastOk, .message exampleRead] exampleWorld =
      Run mainHandlers none [.message exampleRead] exampleWorld :=
  (broadcast_ok_absorbed exampleWorld exampleBroadcastOk { Type_ := "broadcast_ok" }
    (by decide) (by rfl) (by rfl)).2.2.2 none [.message exampleRead]

/-! ## Echo -/

/-- C16: on an `echo` request that decodes, `echoHandler` makes exactly one
`Write`, of an envelope addressed to the source of the request whose body has
type `echo_ok`, no `msg_id` key, `in_reply_to` equal to the message id of the
request and `echo` equal to its payload; when the write succeeds the output
grows by exactly that envelope. The rest of the world is unchanged. -/
theorem echoHandler_reply (w : World) (msg : Message) (body : EchoBody)
    (hdec : unmarshalEchoBody msg.Body = .ok body) :
    (echoHandler msg w).2.node.writer =
      (w.node.writer.Write (echoReply w.node.id msg.Src body.MessageID body.Echo)).2 ∧
    (w.node.writer.reliable = true →
      (echoHandler msg w).1 = none ∧
      (echoHandler msg w).2.node.writer.out =
        w.node.writer.out ++ [echoReply w.node.id msg.Src body.MessageID body.Echo]) ∧
    (echoReply w.node.id msg.Src body.MessageID body.Echo).Dst = msg.Src ∧
    unmarshalEchoBody (echoReply w.node.id msg.Src body.MessageID body.Echo).Body =
      .ok { Type_ := "echo_ok", MessageID := 0, InReplyTo := body.MessageID, Echo := body.Echo } ∧
    (∃ o, (echoReply w.node.id msg.Src body.MessageID body.Echo).Body = .object o ∧
      o.msg_id = .absent ∧ o.type = .value "echo_ok" ∧ o.echo = .value body.Echo) ∧
    (echoHandler msg w).2.messages = w.messages ∧
    (echoHandler msg w).2.node.id = w.node.id ∧
    (echoHandler msg w).2.node.nodes = w.node.nodes ∧
    (echoHandler msg w).2.node.topology = w.node.topology := by
  have hw : (echoHandler msg w).2.node.writer =
      (w.node.writer.Write (echoReply w.node.id msg.Src body.MessageID body.Echo)).2 := by
    simp only [echoHandler, hdec]
    rw [Send_snd]
    rfl
  refine ⟨hw, ?_, rfl, ?_, ⟨_, rfl, rfl, rfl, rfl⟩, ?_, ?_, ?_, ?_⟩
  · intro hrel
    constructor
    · simp only [echoHandler, hdec]
      rw [Send_reliable _ _ _ hrel]
    · rw [hw, Write_reliable _ _ hrel]
  · simp only [echoReply, unmarshalEchoBody]
    rw [decodeHeader_marshalHeader
      { Type_ := "echo_ok", MessageID := 0, InReplyTo := body.MessageID }] <;> rfl
  · simp only [echoHandler, hdec]
  · simp only [echoHandler, hdec]; rw [Send_snd]
  · simp only [echoHandler, hdec]; rw [Send_snd]
  · simp only [echoHandler, hdec]; rw [Send_snd]

/-- Witness of C16: the `echo` request with message id 4 and payload `hi`. -/
theorem echoHandler_reply_witness :
    (echoHandler exampleEcho exampleWorld).2.node.writer.out =
      [] ++ [echoReply "n1" "c1" 4 "hi"] :=
  ((echoHandler_reply exampleWorld exampleEcho
    { Type_ := "echo", MessageID := 4, Echo := "hi" } (by rfl)).2.1 (by decide)).2

/-! ## The value set as a function of the delivered values -/

theorem foldl_store_eq (vs : List Int) (acc : List Int) :
    vs.foldl (fun ms v => if v ∈ ms then ms else ms ++ [v]) acc =
      acc ++ (keepFirstOccurrences vs).filter (fun x => decide (x ∉ acc)) := by
  induction vs generalizing acc with
  | nil => simp [keepFirstOccurrences]
  | cons v rest ih =>
    simp only [List.foldl_cons, keepFirstOccurrences]
    by_cases hv : v ∈ acc
    · simp only [hv, if_true]
      rw [ih acc, List.filter_cons]
      simp only [hv, not_true_eq_false, decide_False, Bool.false_eq_true, if_false,
        List.filter_filter]
      congr 1
      apply List.filter_congr
      intro x _
      by_cases hx : x ∈ acc
      · simp [hx]
      · have hne : x ≠ v := fun h => hx (h ▸ hv)
        simp [hx, hne]
    · simp only [hv, if_false]
      rw [ih (acc ++ [v]), List.filter_cons]
      simp only [hv, not_false_eq_true, decide_True, if_true, List.filter_filter]
      rw [List.append_assoc, List.singleton_append]
      congr 2
      apply List.filter_congr
      intro x _
      by_cases hx : x ∈ acc
      · simp [hx]
      · by_cases hne : x = v
        · simp [hne]
        · simp [hx, hne]

theorem Run_broadcasts_messages (lines : List Line) (w : World)
    (hinit : w.node.isInitialised = true) (hrel : w.node.writer.reliable = true)
    (hb : ∀ l ∈ lines, (broadcastValue l).isSome = true) :
    (Run mainHandlers none lines w).2.messages =
      (lines.filterMap broadcastValue).foldl
        (fun ms v => if v ∈ ms then ms else ms ++ [v]) w.messages := by
  induction lines generalizing w with
  | nil => rfl
  | cons l rest ih =>
    obtain ⟨v, hv⟩ := Option.isSome_iff_exists.1 (hb l (List.mem_cons_self _ _))
    obtain ⟨w1, h1, h2, h3, h4⟩ := runLine_broadcast w l v hv hinit hrel
    have hinit1 : w1.node.isInitialised = true := by
      simpa [Node.isInitialised, h2] using hinit
    have ih1 := ih w1 hinit1 h3 (fun x hx => hb x (List.mem_cons_of_mem _ hx))
    simp only [Run, h1]
    rw [ih1, List.filterMap_cons, hv, List.foldl_cons, h4]

/-- C17: on an initialised node with an empty value set and succeeding
writes, after `Run` has handled a sequence of `broadcast` lines the value set
is the list of their values with only the first occurrence of each value
kept, in order of first arrival; senders and topology play no part. -/
theorem value_set_is_first_occurrences (w : World) (lines : List Line)
    (hinit : w.node.isInitialised = true) (hempty : w.messages = [])
    (hrel : w.node.writer.reliable = true)
    (hb : ∀ l ∈ lines, (broadcastValue l).isSome = true) :
    (Run mainHandlers none lines w).1 = none ∧
    (Run mainHandlers none lines w).2.messages =
      keepFirstOccurrences (lines.filterMap broadcastValue) := by
  have hnd : w.messages.Nodup := by rw [hempty]; exact List.nodup_nil
  refine ⟨(Run_broadcasts lines w hinit hrel hnd hb).1, ?_⟩
  rw [Run_broadcasts_messages lines w hinit hrel hb, foldl_store_eq, hempty]
  simp

/-- Witness of C17: the values 5, 6, 5, 7, 6 from three senders. -/
theorem value_set_is_first_occurrences_witness :
    (Run mainHandlers none
      [.message (exampleBroadcast "n2" 5), .message (exampleBroadcast "n3" 6),
       .message (exampleBroadcast "n3" 5), .message (exampleBroadcast "c1" 7),
       .message (exampleBroadcast "n2" 6)] exampleWorld).2.messages =
      keepFirstOccurrences
        ([.message (exampleBroadcast "n2" 5), .message (exampleBroadcast "n3" 6),
          .message (exampleBroadcast "n3" 5), .message (exampleBroadcast "c1" 7),
          .message (exampleBroadcast "n2" 6)].filterMap broadcastValue) ∧
    keepFirstOccurrences [5, 6, 5, 7, 6] = [5, 6, 7] :=
  ⟨(value_set_is_first_occurrences exampleWorld
      [.message (exampleBroadcast "n2" 5), .message (exampleBroadcast "n3" 6),
       .message (exampleBroadcast "n3" 5), .message (exampleBroadcast "c1" 7),
       .message (exampleBroadcast "n2" 6)] (by decide) (by decide) (by decide) (by decide)).2,
   by decide⟩

/-! ## Failure of the acknowledgment -/

theorem Write_some (w : Writer) (l : Message) (h : (w.Write l).1 ≠ none) :
    (w.Write l).2.out = w.out := by
  unfold Writer.Write at h ⊢
  rcases w with ⟨out, pending⟩
  cases pending with
  | nil => simp at h
  | cons b rest =>
    cases b
    · rfl
    · simp at h

theorem writeAll_replicate (ls : List Message) (w : Writer) (rest : List Bool)
    (h : w.pending = List.replicate ls.length true ++ rest) :
    w.writeAll ls = { out := w.out ++ ls, pending := rest } := by
  induction ls generalizing w with
  | nil =>
    rcases w with ⟨out, pending⟩
    simp at h
    simp [Writer.writeAll, h]
  | cons l tl ih =>
    rcases w with ⟨out, pending⟩
    simp only [List.length_cons, List.replicate_succ, List.cons_append] at h
    subst h
    simp only [Writer.writeAll, Writer.Write]
    rw [ih _ rfl]
    simp

/-- C18: `broadcastHandler` is not atomic on error. For a value that is not
yet stored, the value set has grown by that value whatever the writes return;
when the `Write` of the final acknowledgment fails, the handler returns an
error, and the output still holds what the flood wrote. In particular, when
the flood writes succeed and the acknowledgment write fails, the output has
grown by the whole flood and the value is stored. -/
theorem broadcast_not_atomic (w : World) (msg : Message) (body : BroadcastBody)
    (hdec : unmarshalBroadcastBody msg.Body = .ok body)
    (hnew : messageIsKnown w.messages body.Message = false) :
    (broadcastHandler msg w).2.messages = w.messages ++ [body.Message] ∧
    (((w.node.writer.writeAll
          (floodMessages w.node.id msg.Src body.Message w.node.topology)).Write
        (ackMessage w.node.id msg.Src "broadcast_ok" body.MessageID)).1 ≠ none →
      (broadcastHandler msg w).1 ≠ none ∧
      (broadcastHandler msg w).2.node.writer.out =
        (w.node.writer.writeAll
          (floodMessages w.node.id msg.Src body.Message w.node.topology)).out) ∧
    (∀ rest : List Bool,
      w.node.writer.pending =
        List.replicate (floodMessages w.node.id msg.Src body.Message w.node.topology).length true ++
          false :: rest →
      (broadcastHandler msg w).1 =
        some ("error writing message to writer: " ++ writeError) ∧
      (broadcastHandler msg w).2.messages = w.messages ++ [body.Message] ∧
      (broadcastHandler msg w).2.node.writer.out =
        w.node.writer.out ++ floodMessages w.node.id msg.Src body.Message w.node.topology) := by
  have hmsgs : (broadcastHandler msg w).2.messages = w.messages ++ [body.Message] := by
    simp only [broadcastHandler, hdec, hnew, Bool.false_eq_true, if_false]
  have hfst : (broadcastHandler msg w).1 =
      ((w.node.writer.writeAll
          (floodMessages w.node.id msg.Src body.Message w.node.topology)).Write
        (ackMessage w.node.id msg.Src "broadcast_ok" body.MessageID)).1.map
        (fun e => "error writing message to writer: " ++ e) := by
    simp only [broadcastHandler, hdec, hnew, Bool.false_eq_true, if_false]
    rw [Send_fst, floodLoop_eq]
    rfl
  have hsnd : (broadcastHandler msg w).2.node.writer =
      ((w.node.writer.writeAll
          (floodMessages w.node.id msg.Src body.Message w.node.topology)).Write
        (ackMessage w.node.id msg.Src "broadcast_ok" body.MessageID)).2 := by
    simp only [broadcastHandler, hdec, hnew, Bool.false_eq_true, if_false]
    rw [Send_snd, floodLoop_eq]
    rfl
  refine ⟨hmsgs, ?_, ?_⟩
  · intro hfail
    constructor
    · rw [hfst]
      intro hnone
      apply hfail
      cases hx : ((w.node.writer.writeAll
          (floodMessages w.node.id msg.Src body.Message w.node.topology)).Write
        (ackMessage w.node.id msg.Src "broadcast_ok" body.MessageID)).1 with
      | none => rfl
      | some e => rw [hx] at hnone; cases hnone
    · rw [hsnd]
      exact Write_some _ _ hfail
  · intro rest hp
    have hwa := writeAll_replicate _ w.node.writer (false :: rest) hp
    refine ⟨?_, hmsgs, ?_⟩
    · rw [hfst, hwa]
      rfl
    · rw [hsnd, hwa]
      rfl

/-- Witness of C18: node `n1` floods a new value to `n2`, then the write of
the acknowledgment fails. -/
theorem broadcast_not_atomic_witness :
    (broadcastHandler (exampleBroadcast "n3" 5)
        { exampleWorld with node := { exampleWorld.node with
            writer := { pending := [true, false] } } }).1 =
      some ("error writing message to writer: " ++ writeError) ∧
    (broadcastHandler (exampleBroadcast "n3" 5)
        { exampleWorld with node := { exampleWorld.node with
            writer := { pending := [true, false] } } }).2.messages = [] ++ [5] ∧
    (broadcastHandler (exampleBroadcast "n3" 5)
        { exampleWorld with node := { exampleWorld.node with
            writer := { pending := [true, false] } } }).2.node.writer.out =
      [] ++ floodMessages "n1" "n3" 5 ["n2"] :=
  (broadcast_not_atomic
    { exampleWorld with node := { exampleWorld.node with writer := { pending := [true, false] } } }
    (exampleBroadcast "n3" 5) { Type_ := "broadcast", Message := 5 } (by rfl) (by decide)).2.2
    [] (by decide)

/-! ## The nil test of the topology handler -/

/-- C19: `topologyHandler` tests the looked-up neighbour list for nil. On a
topology message that decodes, the lookup is nil exactly when the map has no
entry for the own id or the entry is null, and then the handler returns the
not-in-topology error with the world unchanged. When the entry is a list, the
empty list included, the stored topology becomes that list, the only `Write`
is the `topology_ok` to the sender, and with succeeding writes the handler
returns no error; so with succeeding writes it fails exactly in the nil case.
Two messages that agree on the sender, the message id and the entry of the own
id have the same outcome, whatever their other entries are. -/
theorem topologyHandler_nil_test (w : World) (msg : Message) (body : TopologyBody)
    (hdec : unmarshalTopologyBody msg.Body = .ok body) :
    (mapIndex body.Topology w.node.ID = none ↔
      (body.Topology.lookup w.node.ID = none ∨ body.Topology.lookup w.node.ID = some none)) ∧
    (mapIndex body.Topology w.node.ID = none →
      topologyHandler msg w = (some ("node " ++ w.node.ID ++ " not in topology"), w)) ∧
    (∀ T : List String, body.Topology.lookup w.node.ID = some (some T) →
      (topologyHandler msg w).2.node.topology = T ∧
      (topologyHandler msg w).2.node.writer =
        (w.node.writer.Write (ackMessage w.node.id msg.Src "topology_ok" body.MessageID)).2 ∧
      (w.node.writer.reliable = true →
        (topologyHandler msg w).1 = none ∧
        (topologyHandler msg w).2.node.writer.out =
          w.node.writer.out ++ [ackMessage w.node.id msg.Src "topology_ok" body.MessageID])) ∧
    (w.node.writer.reliable = true →
      ((topologyHandler msg w).1 ≠ none ↔
        (body.Topology.lookup w.node.ID = none ∨
          body.Topology.lookup w.node.ID = some none))) ∧
    (∀ (msg2 : Message) (body2 : TopologyBody),
      unmarshalTopologyBody msg2.Body = .ok body2 → msg2.Src = msg.Src →
      body2.MessageID = body.MessageID →
      body2.Topology.lookup w.node.ID = body.Topology.lookup w.node.ID →
      topologyHandler msg2 w = topologyHandler msg w) := by
  have hiff : mapIndex body.Topology w.node.ID = none ↔
      (body.Topology.lookup w.node.ID = none ∨ body.Topology.lookup w.node.ID = some none) := by
    unfold mapIndex
    cases hl : body.Topology.lookup w.node.ID with
    | none => simp
    | some v => cases v <;> simp
  have hnil : mapIndex body.Topology w.node.ID = none →
      topologyHandler msg w = (some ("node " ++ w.node.ID ++ " not in topology"), w) := by
    intro h
    simp only [topologyHandler, hdec, h]
  have hlist : ∀ T : List String, body.Topology.lookup w.node.ID = some (some T) →
      (topologyHandler msg w).2.node.topology = T ∧
      (topologyHandler msg w).2.node.writer =
        (w.node.writer.Write (ackMessage w.node.id msg.Src "topology_ok" body.MessageID)).2 ∧
      (w.node.writer.reliable = true →
        (topologyHandler msg w).1 = none ∧
        (topologyHandler msg w).2.node.writer.out =
          w.node.writer.out ++ [ackMessage w.node.id msg.Src "topology_ok" body.MessageID]) := by
    intro T hT
    have hidx : mapIndex body.Topology w.node.ID = some T := by simp [mapIndex, hT]
    have hw : (topologyHandler msg w).2.node.writer =
        (w.node.writer.Write (ackMessage w.node.id msg.Src "topology_ok" body.MessageID)).2 := by
      simp only [topologyHandler, hdec, hidx]
      rw [Send_snd]
      rfl
    refine ⟨?_, hw, ?_⟩
    · simp only [topologyHandler, hdec, hidx]
      rw [Send_snd]
      rfl
    · intro hrel
      constructor
      · have hrel2 : (w.node.SetTopology T).writer.reliable = true := hrel
        simp only [topologyHandler, hdec, hidx]
        rw [Send_reliable _ _ _ hrel2]
      · rw [hw, Write_reliable _ _ hrel]
  refine ⟨hiff, hnil, hlist, ?_, ?_⟩
  · intro hrel
    constructor
    · intro herr
      cases hl : body.Topology.lookup w.node.ID with
      | none => exact Or.inl rfl
      | some v =>
        cases v with
        | none => exact Or.inr rfl
        | some T => exact absurd ((hlist T hl).2.2 hrel).1 herr
    · intro h
      rw [hnil (hiff.2 h)]
      simp
  · intro msg2 body2 hdec2 hsrc hid hlk
    have hidx : mapIndex body2.Topology w.node.ID = mapIndex body.Topology w.node.ID := by
      simp only [mapIndex, hlk]
    simp only [topologyHandler, hdec, hdec2, hidx, hsrc, hid]

/-- Witness of C19: the entry of `n1` is the empty list, next to an entry for
`n2`; the stored topology `[n2]` becomes empty and `topology_ok` is sent. -/
theorem topologyHandler_nil_test_witness :
    (topologyHandler (exampleTopology [("n2", some ["n1"]), ("n1", some [])])
        exampleWorld).2.node.topology = [] ∧
    (topologyHandler (exampleTopology [("n2", some ["n1"]), ("n1", some [])])
        exampleWorld).2.node.writer =
      (exampleWorld.node.writer.Write (ackMessage "n1" "c1" "topology_ok" 2)).2 ∧
    (exampleWorld.node.writer.reliable = true →
      (topologyHandler (exampleTopology [("n2", some ["n1"]), ("n1", some [])])
          exampleWorld).1 = none ∧
      (topologyHandler (exampleTopology [("n2", some ["n1"]), ("n1", some [])])
          exampleWorld).2.node.writer.out =
        [] ++ [ackMessage "n1" "c1" "topology_ok" 2]) :=
  (topologyHandler_nil_test exampleWorld
    (exampleTopology [("n2", some ["n1"]), ("n1", some [])])
    { Type_ := "topology", MessageID := 2, Topology := [("n2", some ["n1"]), ("n1", some [])] }
    (by rfl)).2.2.1 [] (by decide)

end Maelstrom
